import Mathlib

/-!
Shallow embedding of the love-nacl repository excerpts:
 - the PPAPI input-event bridge (`src/modules/window/ppapi/Input.cpp`,
   namespace `love::window::ppapi`), and
 - the GLES2 shader-program manager (`Shader.cpp` of
   `love::graphics::gles2`, shipped in the same source bundle).

Pure functions of the C++ source are translated into executable Lean
functions.  Global mutable state (input queue, persistent key/mouse
state, `Shader::currentShader`, `Shader::textureCounters`, the GL
context) is made explicit as record types threaded through the
operations.  GL driver calls whose behaviour is not part of this
repository (program/shader compilation, uniform-location queries,
texture binding) are represented by explicit state fields or by
oracle functions carried in the state; the bookkeeping that the
repository itself performs is translated verbatim.
-/

set_option maxHeartbeats 1000000

namespace LoveNacl

/-! ## Input bridge: data model (`Input.cpp`) -/

/-- Mouse event subtypes (`MOUSE_DOWN` … `MOUSE_LEAVE`). -/
inductive MouseType
  | down | up | move | enter | leave
deriving DecidableEq, Repr

/-- Mouse buttons (`MOUSE_NONE`, `MOUSE_LEFT`, `MOUSE_MIDDLE`, `MOUSE_RIGHT`);
`MOUSE_BUTTON_MAX` is the size of the `g_MouseButton` array. -/
inductive MouseButton
  | none | left | middle | right
deriving DecidableEq, Repr

/-- Numeric value of the `MouseButton` C enum. -/
def MouseButton.toNat : MouseButton → Nat
  | .none => 0
  | .left => 1
  | .middle => 2
  | .right => 3

/-- `MOUSE_BUTTON_MAX` of the C enum. -/
def MOUSE_BUTTON_MAX : Nat := 4

/-- Modelled from the spec: the header declaring `KEY_CODE_MAX` (size of the
`g_Keys` table) is not part of the source bundle; the exact value is
irrelevant to every claim, so it is fixed here. -/
def KEY_CODE_MAX : Nat := 256

/-- Key event subtypes (`RAW_KEY_DOWN`, `KEY_DOWN`, `KEY_UP`). -/
inductive KeyType
  | rawDown | down | up
deriving DecidableEq, Repr

/-- Payload of the mouse variant of `InputEvent`. -/
structure MouseData where
  type : MouseType
  button : MouseButton
  x : Int
  y : Int
  movementX : Int
  movementY : Int
deriving DecidableEq, Repr

/-- Payload of the wheel variant of `InputEvent`.  The host deltas are
floating-point; no claim depends on their values, so they are carried
opaquely as integers. -/
structure WheelData where
  deltaX : Int
  deltaY : Int
  ticksX : Int
  ticksY : Int
  scrollByPage : Bool
deriving DecidableEq, Repr

/-- Payload of the key variant of `InputEvent`. -/
structure KeyData where
  type : KeyType
  code : Nat
deriving DecidableEq, Repr

/-- The variants of the `InputEvent` tagged union.  The character variant
carries the bytes of the fixed-capacity `character.text` buffer
(capacity 5: at most 4 bytes of text plus a terminator, per the data
model).  -/
inductive InputEventData
  | mouse : MouseData → InputEventData
  | wheel : WheelData → InputEventData
  | key : KeyData → InputEventData
  | character : List Nat → InputEventData
deriving DecidableEq, Repr

/-- `InputEvent`: tag plus modifier bitmask common to all variants. -/
structure InputEvent where
  modifiers : Nat
  data : InputEventData
deriving DecidableEq, Repr

/-- The host (Pepper) input-event types handled by `ConvertEvent`'s switch.
The switch has no default; an unhandled type is a contract violation, so the
set is modelled as closed. -/
inductive HostEventType
  | mouseDown | mouseUp | mouseMove | mouseEnter | mouseLeave
  | wheel | rawKeyDown | keyDown | keyUp | char
deriving DecidableEq, Repr

/-- A host `pp::InputEvent`, restricted to the accessors `ConvertEvent`
reads: type, modifier mask, mouse position/movement/button, wheel payload,
key code, and the bytes of the composed character text
(`GetCharacterText().AsString().c_str()`, hence null-free). -/
structure HostEvent where
  type : HostEventType
  modifiers : Nat
  x : Int
  y : Int
  movementX : Int
  movementY : Int
  button : MouseButton
  wheelDeltaX : Int
  wheelDeltaY : Int
  wheelTicksX : Int
  wheelTicksY : Int
  scrollByPage : Bool
  keyCode : Nat
  charText : List Nat
deriving DecidableEq, Repr

/-- `strncpy(dst, src, n)` into an `n`-byte buffer: byte `i` of the result is
`src[i]` while `i < strlen(src)` and `0` afterwards; when
`strlen(src) ≥ n` no terminator is written. -/
def strncpyBuf (n : Nat) (src : List Nat) : List Nat :=
  (List.range n).map (fun i => src.getD i 0)

/-- `ConvertEvent` of `Input.cpp`: pure mapping from a host event to the
internal `InputEvent` record. -/
def ConvertEvent (e : HostEvent) : InputEvent :=
  match e.type with
  | .mouseDown =>
      ⟨e.modifiers, .mouse ⟨.down, e.button, e.x, e.y, e.movementX, e.movementY⟩⟩
  | .mouseUp =>
      ⟨e.modifiers, .mouse ⟨.up, e.button, e.x, e.y, e.movementX, e.movementY⟩⟩
  | .mouseMove =>
      ⟨e.modifiers, .mouse ⟨.move, e.button, e.x, e.y, e.movementX, e.movementY⟩⟩
  | .mouseEnter =>
      ⟨e.modifiers, .mouse ⟨.enter, e.button, e.x, e.y, e.movementX, e.movementY⟩⟩
  | .mouseLeave =>
      ⟨e.modifiers, .mouse ⟨.leave, e.button, e.x, e.y, e.movementX, e.movementY⟩⟩
  | .wheel =>
      ⟨e.modifiers, .wheel ⟨e.wheelDeltaX, e.wheelDeltaY, e.wheelTicksX, e.wheelTicksY, e.scrollByPage⟩⟩
  | .rawKeyDown => ⟨e.modifiers, .key ⟨.rawDown, e.keyCode⟩⟩
  | .keyDown => ⟨e.modifiers, .key ⟨.down, e.keyCode⟩⟩
  | .keyUp => ⟨e.modifiers, .key ⟨.up, e.keyCode⟩⟩
  | .char => ⟨e.modifiers, .character (strncpyBuf 5 e.charText)⟩

/-! ## Input bridge: persistent state and queue -/

/-- The persistent input state: `g_MouseX`, `g_MouseY`, the
`g_MouseButton[MOUSE_BUTTON_MAX]` array and the `g_Keys[KEY_CODE_MAX]`
array. -/
structure InputState where
  mouseX : Int
  mouseY : Int
  mouseButton : List Bool
  keys : List Bool
deriving DecidableEq, Repr

/-- Zero-initialised globals (C statics). -/
def initState : InputState :=
  ⟨0, 0, List.replicate MOUSE_BUTTON_MAX false, List.replicate KEY_CODE_MAX false⟩

/-- `UpdateInputState` of `Input.cpp`. -/
def UpdateInputState (event : InputEvent) (st : InputState) : InputState :=
  match event.data with
  | .mouse m =>
      let st := { st with mouseX := m.x, mouseY := m.y }
      match m.type with
      | .down => { st with mouseButton := st.mouseButton.set m.button.toNat true }
      | .up => { st with mouseButton := st.mouseButton.set m.button.toNat false }
      | _ => st
  | .key k =>
      match k.type with
      | .down =>
          if k.code < KEY_CODE_MAX then { st with keys := st.keys.set k.code true } else st
      | .up =>
          if k.code < KEY_CODE_MAX then { st with keys := st.keys.set k.code false } else st
      | .rawDown => st
  | _ => st

/-- `GetMouseX`. -/
def GetMouseX (st : InputState) : Int := st.mouseX

/-- `GetMouseY`. -/
def GetMouseY (st : InputState) : Int := st.mouseY

/-- `IsMouseButtonPressed`: out-of-range buttons (including `MOUSE_NONE`)
report not-pressed. -/
def IsMouseButtonPressed (st : InputState) (button : MouseButton) : Bool :=
  if button.toNat ≤ MouseButton.none.toNat ∨ button.toNat ≥ MOUSE_BUTTON_MAX then false
  else st.mouseButton.getD button.toNat false

/-- `IsKeyPressed`: out-of-range codes report not-pressed. -/
def IsKeyPressed (st : InputState) (code : Nat) : Bool :=
  if code ≥ KEY_CODE_MAX then false
  else st.keys.getD code false

/-- The bridge state: persistent input state plus the FIFO event queue
(`g_InputEventQueue`).  The mutex and condition variable guard the queue;
with every operation modelled as an atomic step they have no further
observable effect. -/
structure Bridge where
  state : InputState
  queue : List InputEvent
deriving DecidableEq, Repr

/-- The bridge at start-up. -/
def bridgeInit : Bridge := ⟨initState, []⟩

/-- `EnqueueEvent`: convert, update the persistent state synchronously, then
append to the queue. -/
def EnqueueEvent (b : Bridge) (e : HostEvent) : Bridge :=
  let converted := ConvertEvent e
  { state := UpdateInputState converted b.state
    queue := b.queue ++ [converted] }

/-- `DequeueEvent`: pop the front element if present; `none` when empty. -/
def DequeueEvent (b : Bridge) : Option InputEvent × Bridge :=
  match b.queue with
  | [] => (none, b)
  | e :: rest => (some e, { b with queue := rest })

/-- `DequeueAllEvents`: return the whole queue in order and clear it. -/
def DequeueAllEvents (b : Bridge) : List InputEvent × Bridge :=
  (b.queue, { b with queue := [] })

/-- A sequence of `EnqueueEvent` calls. -/
def enqueueAll (b : Bridge) (es : List HostEvent) : Bridge :=
  es.foldl EnqueueEvent b

/-- `n` successive `DequeueEvent` calls, collecting the returned events in
order. -/
def dequeueN : Nat → Bridge → List InputEvent × Bridge
  | 0, b => ([], b)
  | n + 1, b =>
      match DequeueEvent b with
      | (none, b') => ([], b')
      | (some e, b') =>
          let r := dequeueN n b'
          (e :: r.1, r.2)

/-! ## Shader program manager: data model (`Shader.cpp`, `love::graphics::gles2`)

Shader objects live on the C++ heap and share the statics
`Shader::currentShader`, `Shader::defaultShader`, `Shader::defaultSources`,
`Shader::maxTextureUnits` and `Shader::textureCounters`, plus the GL
context.  All of that is collected in a `World` record; individual shader
objects are addressed by a numeric identifier standing for the C++ `this`
pointer.  `std::map` members are modelled as association lists with
first-match lookup; an insert prepends, which preserves lookup
semantics. -/

/-- Shader stages: `TYPE_VERTEX` and `TYPE_PIXEL`. -/
inductive ShaderType
  | vertex | pixel
deriving DecidableEq, Repr

/-- `ShaderSources`: a map from stage to source text. -/
abbrev ShaderSources := List (ShaderType × String)

/-- The per-object state of one `Shader`:
source code map, GL program handle, the uniform-location cache `uniforms`,
the name-to-texture-unit map `textureUnitPool`, and the per-unit
bound-texture record `activeTextureUnits`. -/
structure ShaderData where
  shaderSources : ShaderSources
  program : Nat
  uniforms : List (String × Int)
  textureUnitPool : List (String × Nat)
  activeTextureUnits : List Nat
deriving DecidableEq, Repr

/-- The process-wide state: the `Shader` statics, the heap of live shader
objects, and the GL context state the code manipulates.
`glUniformLoc` is the driver's `glGetUniformLocation` oracle
(program handle and name to location, `-1` when absent);
`nextProgram` generates fresh nonzero handles for `glCreateProgram`;
`ctxTextureUnits` is the context-reported number of texture units.
`glBound` and `glUniforms` are logs of texture-unit bindings and
`glUniform1i` writes, most recent first. -/
structure World where
  maxTextureUnits : Nat
  textureCounters : List Int
  currentShader : Option Nat
  defaultShader : Option Nat
  defaultSources : ShaderSources
  shaders : List (Nat × ShaderData)
  glProgram : Nat
  glBound : List (Nat × Nat)
  glActiveUnit : Nat
  glUniforms : List (Int × Nat)
  glUniformLoc : Nat → String → Int
  nextProgram : Nat
  ctxTextureUnits : Int

/-- Heap lookup of a shader object by identifier. -/
def World.find (w : World) (id : Nat) : Option ShaderData :=
  w.shaders.lookup id

/-- Writing back a shader object's state (shadowing insert). -/
def World.setShader (w : World) (id : Nat) (d : ShaderData) : World :=
  { w with shaders := (id, d) :: w.shaders }

/-- The texture currently bound to a unit, per the GL binding log. -/
def World.boundTexture (w : World) (unit : Nat) : Option Nat :=
  (w.glBound.find? (fun p => p.1 == unit)).map (·.2)

/-- The last value written to a uniform location by `glUniform1i`. -/
def World.uniformValue (w : World) (location : Int) : Option Nat :=
  (w.glUniforms.find? (fun p => p.1 == location)).map (·.2)

/-- Modelled from the spec: `Context::bindTextureToUnit` is not part of the
source bundle; per the spec the context binds a texture object to a texture
unit.  The loop in `Shader::attach` issues one such call per nonzero entry
of `activeTextureUnits`, binding entry `i` to unit `i + 1`; this helper
performs those calls for the suffix of the record starting at index `i`. -/
def rebindFrom (glBound : List (Nat × Nat)) (atu : List Nat) (i : Nat) :
    List (Nat × Nat) :=
  match atu with
  | [] => glBound
  | a :: rest =>
      rebindFrom (if a > 0 then (i + 1, a) :: glBound else glBound) rest (i + 1)

/-- `Shader::attach(temporary)`: bind the program if not already current,
record this shader as current and, when the attach is not temporary,
re-establish all recorded texture bindings and reset the active texture
unit to 0. -/
def Shader.attach (w : World) (id : Nat) (temporary : Bool) : World :=
  match w.find id with
  | none => w
  | some d =>
      let w₁ := if w.currentShader ≠ some id then { w with glProgram := d.program } else w
      let w₂ := { w₁ with currentShader := some id }
      if temporary then w₂
      else
        { w₂ with glBound := rebindFrom w₂.glBound d.activeTextureUnits 0,
                  glActiveUnit := 0 }

/-- `Shader::detach`: attach the default shader when it exists, otherwise
unbind the program and clear the current-shader reference. -/
def Shader.detach (w : World) : World :=
  match w.defaultShader with
  | some dId => Shader.attach w dId false
  | none => { w with glProgram := 0, currentShader := none }

/-- The destructor of `TemporaryAttacher`: re-attach the previously current
shader, or detach when there was none. -/
def temporaryRestore (w : World) (prev : Option Nat) : World :=
  match prev with
  | some p => Shader.attach w p false
  | none => Shader.detach w

/-- `Shader::getUniformLocation(name, lenient)` (the C++ flag tolerating
lookup failures): serve from the cache unless the cached value is `-1` and
the lookup is strict; otherwise query the driver, fail on `-1` unless
lenient, and cache the result. -/
def Shader.getUniformLocation (w : World) (d : ShaderData) (name : String)
    (lenient : Bool) : Except String (Int × ShaderData) :=
  let query : Except String (Int × ShaderData) :=
    let location := w.glUniformLoc d.program name
    if location = -1 ∧ ¬ lenient then
      .error ("Cannot get location of shader variable " ++ name ++ ".")
    else
      .ok (location, { d with uniforms := (name, location) :: d.uniforms })
  match d.uniforms.lookup name with
  | some loc => if loc ≠ -1 ∨ lenient then .ok (loc, d) else query
  | none => query

/-- `Shader::getTextureUnit(name)`: return the memoised unit if one was
assigned; otherwise claim the first unit whose global counter is zero;
otherwise the first unit with an empty slot in this shader's own record;
otherwise fail.  Claimed units are `index + 1` (unit 0 is never used). -/
def Shader.getTextureUnit (textureCounters : List Int) (d : ShaderData)
    (name : String) : Except String (Nat × ShaderData) :=
  match d.textureUnitPool.lookup name with
  | some u => .ok (u, d)
  | none =>
      match textureCounters.findIdx? (fun c => c == 0) with
      | some i =>
          .ok (i + 1, { d with textureUnitPool := (name, i + 1) :: d.textureUnitPool })
      | none =>
          match d.activeTextureUnits.findIdx? (fun a => a == 0) with
          | some j =>
              .ok (j + 1, { d with textureUnitPool := (name, j + 1) :: d.textureUnitPool })
          | none => .error "No more texture units available for shader."

/-- `Shader::sendTexture(name, texture)`: temporarily attach, resolve the
uniform location and the texture unit, bind the texture to the unit, write
the unit index into the uniform, reset the active unit, increment the
global counter for the unit when this shader's slot for it is empty, record
the texture handle in the slot, then restore the previously current
shader.  Error propagation models the C++ exception aborting the call. -/
def Shader.sendTexture (w : World) (id : Nat) (name : String) (texture : Nat) :
    Except String World :=
  match w.find id with
  | none => .error "invalid shader object"
  | some d₀ =>
      let prev := w.currentShader
      let w₁ := Shader.attach w id true
      match Shader.getUniformLocation w₁ d₀ name false with
      | .error e => .error e
      | .ok (location, d₁) =>
          match Shader.getTextureUnit w₁.textureCounters d₁ name with
          | .error e => .error e
          | .ok (textureunit, d₂) =>
              let w₂ := { w₁ with glBound := (textureunit, texture) :: w₁.glBound }
              let w₃ := { w₂ with glUniforms := (location, textureunit) :: w₂.glUniforms }
              let w₄ := { w₃ with glActiveUnit := 0 }
              let w₅ :=
                if d₂.activeTextureUnits.getD (textureunit - 1) 0 = 0 then
                  { w₄ with textureCounters :=
                      (w₄.textureCounters.set (textureunit - 1)
                        (w₄.textureCounters.getD (textureunit - 1) 0 + 1)) }
                else w₄
              let d₃ := { d₂ with activeTextureUnits :=
                  d₂.activeTextureUnits.set (textureunit - 1) texture }
              .ok (temporaryRestore (w₅.setShader id d₃) prev)

/-- The size-specific driver calls dispatched by `sendFloat`/`sendMatrix`. -/
inductive UniformCall
  | uniform1fv | uniform2fv | uniform3fv | uniform4fv
  | uniformMatrix2fv | uniformMatrix3fv | uniformMatrix4fv
deriving DecidableEq, Repr

/-- `Shader::sendFloat(name, size, vec, count)`: temporarily attach, resolve
the location, reject sizes outside 1–4, dispatch the size-specific
`glUniformNfv` (the float payload does not influence control flow and is
not carried). -/
def Shader.sendFloat (w : World) (id : Nat) (name : String) (size : Int) :
    Except String (World × UniformCall) :=
  match w.find id with
  | none => .error "invalid shader object"
  | some d₀ =>
      let prev := w.currentShader
      let w₁ := Shader.attach w id true
      match Shader.getUniformLocation w₁ d₀ name false with
      | .error e => .error e
      | .ok (_location, d₁) =>
          if size < 1 ∨ size > 4 then
            .error ("Invalid variable size: " ++ toString size ++ " (expected 1-4).")
          else
            let call : UniformCall :=
              if size = 4 then .uniform4fv
              else if size = 3 then .uniform3fv
              else if size = 2 then .uniform2fv
              else .uniform1fv
            .ok (temporaryRestore (w₁.setShader id d₁) prev, call)

/-- `Shader::sendMatrix(name, size, m, count)`: as `sendFloat` but rejecting
sizes outside 2–4 and dispatching `glUniformMatrixNfv`. -/
def Shader.sendMatrix (w : World) (id : Nat) (name : String) (size : Int) :
    Except String (World × UniformCall) :=
  match w.find id with
  | none => .error "invalid shader object"
  | some d₀ =>
      let prev := w.currentShader
      let w₁ := Shader.attach w id true
      match Shader.getUniformLocation w₁ d₀ name false with
      | .error e => .error e
      | .ok (_location, d₁) =>
          if size < 2 ∨ size > 4 then
            .error ("Invalid matrix size: " ++ toString size ++ "x" ++ toString size ++
              " (can only set 2x2, 3x3 or 4x4 matrices).")
          else
            let call : UniformCall :=
              if size = 4 then .uniformMatrix4fv
              else if size = 3 then .uniformMatrix3fv
              else .uniformMatrix2fv
            .ok (temporaryRestore (w₁.setShader id d₁) prev, call)

/-- `Shader::hasUniform(name)`: lenient location lookup. -/
def Shader.hasUniform (w : World) (id : Nat) (name : String) : Bool × World :=
  match w.find id with
  | none => (false, w)
  | some d =>
      match Shader.getUniformLocation w d name true with
      | .ok (loc, d') => (loc ≥ 0, w.setShader id d')
      | .error _ => (false, w)

/-- The counter-decrement loop of `Shader::unloadVolatile`: for every index
`i` of `activeTextureUnits` holding a nonzero texture,
`textureCounters[i] = max(textureCounters[i] - 1, 0)`. -/
def decrementLoop (textureCounters : List Int) (atu : List Nat) : List Int :=
  match textureCounters, atu with
  | [], _ => []
  | c :: tc, [] => c :: tc
  | c :: tc, a :: rest => (if a > 0 then max (c - 1) 0 else c) :: decrementLoop tc rest

/-- `Shader::unloadVolatile`: unbind the program if this shader is current
(the current-shader reference itself is kept), release the program handle,
decrement the global counters for units this shader had bound textures to
(floored at zero), and clear the unit record and the uniform-location
cache. -/
def Shader.unloadVolatile (w : World) (id : Nat) : World :=
  match w.find id with
  | none => w
  | some d₀ =>
      let w₁ := if w.currentShader = some id then { w with glProgram := 0 } else w
      let d₁ := { d₀ with program := 0 }
      let w₂ := { w₁ with textureCounters :=
          (decrementLoop w₁.textureCounters d₀.activeTextureUnits) }
      let d₂ := { d₁ with
          activeTextureUnits := List.replicate w.maxTextureUnits 0,
          uniforms := [] }
      w₂.setShader id d₂

/-- `Shader::loadVolatile`: zero the unit record, compile each source
(driver compilation and linking succeed in this model; their failures carry
driver diagnostics and are outside the repository's own logic), create a
fresh nonzero program object, and when this shader is current re-attach it
so that the new program gets bound. -/
def Shader.loadVolatile (w : World) (id : Nat) : Except String World :=
  match w.find id with
  | none => .error "invalid shader object"
  | some d₀ =>
      let d₁ := { d₀ with activeTextureUnits := List.replicate w.maxTextureUnits 0 }
      if d₁.shaderSources.isEmpty then
        .error "Cannot create shader: no valid source code!"
      else
        let d₂ := { d₁ with program := w.nextProgram }
        let w₁ := { w with nextProgram := w.nextProgram + 1 }
        let w₂ := w₁.setShader id d₂
        if w₂.currentShader = some id then
          .ok (Shader.attach { w₂ with currentShader := none } id false)
        else
          .ok w₂

/-- `Shader::checkCodeCompleteness`: fill a missing vertex or pixel stage
from the default sources, failing when a stage is missing from both. -/
def Shader.checkCodeCompleteness (defaults : ShaderSources) (s : ShaderSources) :
    Except String ShaderSources :=
  let step1 : Except String ShaderSources :=
    if (s.lookup ShaderType.vertex).isSome then .ok s
    else
      match defaults.lookup ShaderType.vertex with
      | some v => .ok ((ShaderType.vertex, v) :: s)
      | none => .error "Cannot create shader: no default vertex shader code!"
  match step1 with
  | .error e => .error e
  | .ok s₁ =>
      if (s₁.lookup ShaderType.pixel).isSome then .ok s₁
      else
        match defaults.lookup ShaderType.pixel with
        | some p => .ok ((ShaderType.pixel, p) :: s₁)
        | none => .error "Cannot create shader: no default pixel shader code!"

/-- The `Shader` constructor: reject an empty source map, refresh
`maxTextureUnits` from the context, grow the global counter table when
needed, complete the sources from the defaults, allocate the object and run
`loadVolatile`.  (Binding the generic vertex-attribute names has no
observable effect in the modelled state and is omitted.) -/
def Shader.create (w : World) (id : Nat) (sources : ShaderSources) :
    Except String World :=
  if sources.isEmpty then .error "Cannot create shader: no source code!"
  else
    let m := (max (w.ctxTextureUnits - 1) 0).toNat
    let w₁ := { w with
        maxTextureUnits := m,
        textureCounters :=
          if w.textureCounters.length < m then
            w.textureCounters ++ List.replicate (m - w.textureCounters.length) 0
          else w.textureCounters }
    match Shader.checkCodeCompleteness w₁.defaultSources sources with
    | .error e => .error e
    | .ok completed =>
        Shader.loadVolatile (w₁.setShader id ⟨completed, 0, [], [], []⟩) id

/-- The `Shader` destructor: detach when current, then `unloadVolatile`. -/
def Shader.destroy (w : World) (id : Nat) : World :=
  let w₁ := if w.currentShader = some id then Shader.detach w else w
  Shader.unloadVolatile w₁ id

/-- `Shader::setDefaultSources`: requires both stages, then replaces the
static default-source map. -/
def Shader.setDefaultSources (w : World) (sources : ShaderSources) :
    Except String World :=
  if (sources.lookup ShaderType.vertex).isNone ∨ (sources.lookup ShaderType.pixel).isNone then
    .error "Default shader sources need both vertex and pixel code."
  else
    .ok { w with defaultSources := sources }

/-- One observable operation of the shader manager, as a step relation on
worlds (error outcomes terminate the call and are not steps). -/
inductive WStep : World → World → Prop
  | create (w : World) (id : Nat) (s : ShaderSources) (w' : World) :
      w.find id = none → Shader.create w id s = .ok w' → WStep w w'
  | destroy (w : World) (id : Nat) : WStep w (Shader.destroy w id)
  | attach (w : World) (id : Nat) (t : Bool) : WStep w (Shader.attach w id t)
  | detach (w : World) : WStep w (Shader.detach w)
  | load (w : World) (id : Nat) (w' : World) :
      Shader.loadVolatile w id = .ok w' → WStep w w'
  | unload (w : World) (id : Nat) : WStep w (Shader.unloadVolatile w id)
  | sendTexture (w : World) (id : Nat) (name : String) (tex : Nat) (w' : World) :
      Shader.sendTexture w id name tex = .ok w' → WStep w w'
  | sendFloat (w : World) (id : Nat) (name : String) (size : Int)
      (w' : World) (c : UniformCall) :
      Shader.sendFloat w id name size = .ok (w', c) → WStep w w'
  | sendMatrix (w : World) (id : Nat) (name : String) (size : Int)
      (w' : World) (c : UniformCall) :
      Shader.sendMatrix w id name size = .ok (w', c) → WStep w w'
  | hasUniform (w : World) (id : Nat) (name : String) :
      WStep w (Shader.hasUniform w id name).2
  | setDefaultSources (w : World) (s : ShaderSources) (w' : World) :
      Shader.setDefaultSources w s = .ok w' → WStep w w'

/-- All global texture-unit usage counters are nonnegative. -/
def countersNonneg (w : World) : Prop :=
  ∀ c ∈ w.textureCounters, 0 ≤ c

/-! ## Further definitions used by the statements -/

/-- The binding log lookup, at the list level. -/
def bindingAt (gl : List (Nat × Nat)) (u : Nat) : Option Nat :=
  (gl.find? (fun p => p.1 == u)).map (·.2)

/-- Whether a host event is one of the five mouse variants. -/
def HostEventType.isMouse : HostEventType → Bool
  | .mouseDown | .mouseUp | .mouseMove | .mouseEnter | .mouseLeave => true
  | _ => false

/-- The effect of a single host event on one key, as the spec describes it:
a down/up event for that key code overrides, anything else is neutral. -/
def keyAction (e : HostEvent) (code : Nat) : Option Bool :=
  match e.type with
  | .keyDown => if e.keyCode = code then some true else none
  | .keyUp => if e.keyCode = code then some false else none
  | _ => none

/-- The most recent down/up verdict for a key over a host-event history
(later events win). -/
def lastKeyEvent : List HostEvent → Nat → Option Bool
  | [], _ => none
  | e :: es, code =>
      match lastKeyEvent es code with
      | some b => some b
      | none => keyAction e code

/-- The effect of a single host event on one mouse button. -/
def buttonAction (e : HostEvent) (b : MouseButton) : Option Bool :=
  match e.type with
  | .mouseDown => if e.button = b then some true else none
  | .mouseUp => if e.button = b then some false else none
  | _ => none

/-- The most recent down/up verdict for a mouse button over a host-event
history. -/
def lastButtonEvent : List HostEvent → MouseButton → Option Bool
  | [], _ => none
  | e :: es, b =>
      match lastButtonEvent es b with
      | some v => some v
      | none => buttonAction e b

/-- The position carried by the most recent mouse event of a host-event
history. -/
def lastMousePos : List HostEvent → Option (Int × Int)
  | [] => none
  | e :: es =>
      match lastMousePos es with
      | some p => some p
      | none => if e.type.isMouse then some (e.x, e.y) else none

/-- An interleaving of producer and consumer calls on the input bridge. -/
inductive BridgeAction
  | enq : HostEvent → BridgeAction
  | deq : BridgeAction
  | deqAll : BridgeAction
deriving DecidableEq, Repr

/-- Whether an action is an enqueue, and the host event it carries. -/
def BridgeAction.enqEvent : BridgeAction → Option HostEvent
  | .enq e => some e
  | _ => none

/-- Run one bridge action (consumer results are discarded; only the state
evolution matters here). -/
def runAction (b : Bridge) : BridgeAction → Bridge
  | .enq e => EnqueueEvent b e
  | .deq => (DequeueEvent b).2
  | .deqAll => (DequeueAllEvents b).2

/-- Run a sequence of bridge actions. -/
def runActions (b : Bridge) (acts : List BridgeAction) : Bridge :=
  acts.foldl runAction b

/-- All texture-unit assignments recorded by a shader are at least 1 (unit
0 is never claimed). -/
def poolGE1 (d : ShaderData) : Prop :=
  ∀ p ∈ d.textureUnitPool, 1 ≤ p.2

/-! ### Concrete states used to instantiate the theorems -/

/-- A world with one freshly loaded shader (identifier 1) on a context with
two texture units, no current shader and a uniform-location oracle that
resolves every name to location 0. -/
def exampleShader : ShaderData :=
  ⟨[(ShaderType.vertex, "v"), (ShaderType.pixel, "p")], 1, [], [], [0, 0]⟩

def exampleWorld : World where
  maxTextureUnits := 2
  textureCounters := [0, 0]
  currentShader := none
  defaultShader := none
  defaultSources := []
  shaders := [(1, exampleShader)]
  glProgram := 0
  glBound := []
  glActiveUnit := 5
  glUniforms := []
  glUniformLoc := fun _ _ => 0
  nextProgram := 2
  ctxTextureUnits := 3

/-- As `exampleWorld` but with shader 1 current (its program bound). -/
def exampleWorldCur : World :=
  { exampleWorld with currentShader := some 1, glProgram := 1 }

/-- A single-unit world for the `sendTexture` counter counterexample. -/
def exampleWorld1 : World :=
  { exampleWorld with
      maxTextureUnits := 1
      textureCounters := [0]
      shaders := [(1, ⟨[(ShaderType.vertex, "v"), (ShaderType.pixel, "p")], 1, [], [], [0]⟩)]
      ctxTextureUnits := 2 }

/-- A second freshly loaded shader (identifier 2). -/
def exampleShader2 : ShaderData :=
  ⟨[(ShaderType.vertex, "v2"), (ShaderType.pixel, "p2")], 3, [], [], [0, 0]⟩

/-- A world holding two fresh shaders for the distinct-unit theorem. -/
def exampleWorld2 : World :=
  { exampleWorld with shaders := [(1, exampleShader), (2, exampleShader2)] }

/-- A shader with one recorded binding (unit 1 holds texture 5) and a
memoised assignment of unit 2, for the unload/reload theorems. -/
def exampleShaderC3 : ShaderData :=
  ⟨[(ShaderType.vertex, "v"), (ShaderType.pixel, "p")], 1, [], [("t", 2)], [5, 0]⟩

/-- A world owning `exampleShaderC3` with counters `[2, 3]`. -/
def exampleWorldC3 : World :=
  { exampleWorld with
      textureCounters := [2, 3]
      shaders := [(1, exampleShaderC3)] }

/-- A host character event whose composed text is five nonzero bytes
("hello"). -/
def helloCharEvent : HostEvent :=
  ⟨.char, 0, 0, 0, 0, 0, .none, 0, 0, 0, 0, false, 0, [104, 101, 108, 108, 111]⟩

/-- Extract the character-variant text buffer of an `InputEvent`. -/
def characterTextOf (e : InputEvent) : List Nat :=
  match e.data with
  | .character t => t
  | _ => []

/-! ## List infrastructure lemmas -/

theorem getD_set_self {α : Type} {l : List α} {i : Nat} {a d : α}
    (h : i < l.length) : (l.set i a).getD i d = a := by
  simp [List.getD_eq_getElem?_getD, List.getElem?_set_self, h]

theorem getD_set_ne {α : Type} {l : List α} {i j : Nat} {a d : α}
    (h : i ≠ j) : (l.set i a).getD j d = l.getD j d := by
  simp [List.getD_eq_getElem?_getD, List.getElem?_set_ne h]

theorem getD_of_lt {α : Type} {l : List α} {i : Nat} {d : α} (h : i < l.length) :
    l.getD i d = l[i] := by
  simp [List.getD_eq_getElem?_getD, List.getElem?_eq_getElem h]

/-- `std::find(l, z)` characterised by indices: success returns the first
index holding `z`. -/
theorem findIdx?_eq_zero_some {α : Type} [BEq α] [LawfulBEq α] {z : α}
    {l : List α} {i : Nat} :
    (l.findIdx? (fun c => c == z) = some i) ↔
      (i < l.length ∧ l.getD i z = z ∧ ∀ j, j < i → l.getD j z ≠ z) := by
  rw [List.findIdx?_eq_some_iff_findIdx_eq]
  constructor
  · rintro ⟨hlen, hidx⟩
    rw [List.findIdx_eq hlen] at hidx
    obtain ⟨h1, h2⟩ := hidx
    refine ⟨hlen, ?_, ?_⟩
    · rw [getD_of_lt hlen]; exact eq_of_beq h1
    · intro j hj
      have hjl : j < l.length := lt_trans hj hlen
      rw [getD_of_lt hjl]
      intro hzz
      have := h2 j hj
      rw [hzz] at this
      simp at this
  · rintro ⟨hlen, h1, h2⟩
    refine ⟨hlen, ?_⟩
    rw [List.findIdx_eq hlen]
    constructor
    · rw [getD_of_lt hlen] at h1
      simp [h1]
    · intro j hj
      have hjl : j < l.length := lt_trans hj hlen
      have := h2 j hj
      rw [getD_of_lt hjl] at this
      simpa using this

/-- `std::find(l, z)` failing means no index holds `z`. -/
theorem findIdx?_eq_zero_none {α : Type} [BEq α] [LawfulBEq α] {z : α}
    {l : List α} :
    (l.findIdx? (fun c => c == z) = none) ↔ ∀ j, j < l.length → l.getD j z ≠ z := by
  rw [List.findIdx?_eq_none_iff]
  constructor
  · intro h j hj
    rw [getD_of_lt hj]
    intro hzz
    have := h l[j] (l.getElem_mem hj)
    rw [hzz] at this
    simp at this
  · intro h x hx
    obtain ⟨j, hj, rfl⟩ := List.mem_iff_getElem.mp hx
    have := h j hj
    rw [getD_of_lt hj] at this
    simpa using this

/-! ## Frame lemmas for the world operations -/

theorem find_setShader_self {w : World} {id : Nat} {d : ShaderData} :
    (w.setShader id d).find id = some d := by
  simp [World.setShader, World.find, List.lookup_cons]

theorem find_setShader_ne {w : World} {id j : Nat} {d : ShaderData}
    (h : j ≠ id) : (w.setShader id d).find j = w.find j := by
  have hb : (j == id) = false := beq_false_of_ne h
  simp [World.setShader, World.find, List.lookup_cons, hb]

/-- `attach` never writes shader objects, the counters, the default
sources, the uniform log, the uniform-location oracle or the program
generator. -/
theorem attach_frame (w : World) (id : Nat) (t : Bool) :
    (Shader.attach w id t).shaders = w.shaders ∧
    (Shader.attach w id t).textureCounters = w.textureCounters ∧
    (Shader.attach w id t).maxTextureUnits = w.maxTextureUnits ∧
    (Shader.attach w id t).defaultSources = w.defaultSources ∧
    (Shader.attach w id t).glUniforms = w.glUniforms ∧
    (Shader.attach w id t).glUniformLoc = w.glUniformLoc ∧
    (Shader.attach w id t).nextProgram = w.nextProgram ∧
    (Shader.attach w id t).defaultShader = w.defaultShader ∧
    (Shader.attach w id t).ctxTextureUnits = w.ctxTextureUnits := by
  unfold Shader.attach
  cases w.find id with
  | none => simp
  | some d => by_cases h1 : w.currentShader ≠ some id <;> cases t <;> simp [h1]

theorem detach_frame (w : World) :
    (Shader.detach w).shaders = w.shaders ∧
    (Shader.detach w).textureCounters = w.textureCounters ∧
    (Shader.detach w).maxTextureUnits = w.maxTextureUnits ∧
    (Shader.detach w).glUniforms = w.glUniforms ∧
    (Shader.detach w).defaultSources = w.defaultSources ∧
    (Shader.detach w).glUniformLoc = w.glUniformLoc ∧
    (Shader.detach w).nextProgram = w.nextProgram ∧
    (Shader.detach w).ctxTextureUnits = w.ctxTextureUnits := by
  unfold Shader.detach
  cases h : w.defaultShader with
  | none => simp
  | some p =>
      have := attach_frame w p false
      tauto

theorem temporaryRestore_frame (w : World) (prev : Option Nat) :
    (temporaryRestore w prev).shaders = w.shaders ∧
    (temporaryRestore w prev).textureCounters = w.textureCounters ∧
    (temporaryRestore w prev).maxTextureUnits = w.maxTextureUnits ∧
    (temporaryRestore w prev).glUniforms = w.glUniforms ∧
    (temporaryRestore w prev).defaultSources = w.defaultSources ∧
    (temporaryRestore w prev).glUniformLoc = w.glUniformLoc ∧
    (temporaryRestore w prev).nextProgram = w.nextProgram ∧
    (temporaryRestore w prev).ctxTextureUnits = w.ctxTextureUnits := by
  unfold temporaryRestore
  cases prev with
  | none =>
      have := detach_frame w
      tauto
  | some p =>
      have := attach_frame w p false
      tauto

theorem temporaryRestore_find (w : World) (prev : Option Nat) (j : Nat) :
    (temporaryRestore w prev).find j = w.find j := by
  have h := (temporaryRestore_frame w prev).1
  simp [World.find, h]

theorem attach_find (w : World) (id : Nat) (t : Bool) (j : Nat) :
    (Shader.attach w id t).find j = w.find j := by
  have h := (attach_frame w id t).1
  simp [World.find, h]

/-! ## Input bridge lemmas -/

theorem enqueueAll_queue (b : Bridge) (es : List HostEvent) :
    (enqueueAll b es).queue = b.queue ++ es.map ConvertEvent := by
  induction es generalizing b with
  | nil => simp [enqueueAll]
  | cons e es ih =>
      show (enqueueAll (EnqueueEvent b e) es).queue = _
      rw [ih]
      simp [EnqueueEvent]

theorem dequeueN_drains (b : Bridge) :
    dequeueN b.queue.length b = (b.queue, { b with queue := [] }) := by
  obtain ⟨st, q⟩ := b
  induction q with
  | nil => rfl
  | cons e rest ih =>
      simp [dequeueN, DequeueEvent, ih]

/-- Claim C5: for every sequence of `EnqueueEvent` calls, `DequeueAllEvents`
returns the enqueued events in enqueue order and leaves the queue empty;
`DequeueEvent` returns them one at a time in FIFO order (a full dequeue
sequence returns the queue in order and empties it), and returns no event
exactly when the queue is empty. -/
theorem eventQueue_fifo :
    (∀ es : List HostEvent,
        DequeueAllEvents (enqueueAll bridgeInit es) =
          (es.map ConvertEvent, { enqueueAll bridgeInit es with queue := [] })) ∧
    (∀ b : Bridge, dequeueN b.queue.length b = (b.queue, { b with queue := [] })) ∧
    (∀ b : Bridge, (DequeueEvent b).1 = none ↔ b.queue = []) := by
  refine ⟨?_, dequeueN_drains, ?_⟩
  · intro es
    simp [DequeueAllEvents, enqueueAll_queue, bridgeInit]
  · intro b
    cases hq : b.queue <;> simp [DequeueEvent, hq]

/-- Claim C9 (code bug): for a character event whose composed text is five
nonzero bytes, the fixed-capacity `character.text` buffer produced by
`ConvertEvent` is completely filled with nonzero bytes — `strncpy` with
count 5 writes no null terminator, contradicting the documented invariant
that the buffer is always null-terminated within its capacity. -/
theorem convertEvent_char_buffer_unterminated :
    characterTextOf (ConvertEvent helloCharEvent) = [104, 101, 108, 108, 111] ∧
    (characterTextOf (ConvertEvent helloCharEvent)).length = 5 ∧
    (characterTextOf (ConvertEvent helloCharEvent)).contains 0 = false := by
  decide

/-! ## Shader lemmas: uniform locations, construction, size validation -/

/-- When the driver resolves the name, `getUniformLocation` (strict)
succeeds whatever the cache holds. -/
theorem getUniformLocation_ok_of_driver {w : World} {d : ShaderData} {name : String}
    (h : w.glUniformLoc d.program name ≠ -1) :
    ∃ loc d₁, Shader.getUniformLocation w d name false = .ok (loc, d₁) := by
  unfold Shader.getUniformLocation
  cases hl : d.uniforms.lookup name with
  | none => simp [h]
  | some loc =>
      by_cases hc : loc = -1
      · simp [hl, hc, h]
      · simp [hl, hc]

/-- Success of `getUniformLocation` only rewrites the uniform cache. -/
theorem getUniformLocation_frame {w : World} {d : ShaderData} {name : String}
    {lenient : Bool} {loc : Int} {d₁ : ShaderData}
    (h : Shader.getUniformLocation w d name lenient = .ok (loc, d₁)) :
    d₁.textureUnitPool = d.textureUnitPool ∧
    d₁.activeTextureUnits = d.activeTextureUnits ∧
    d₁.program = d.program ∧ d₁.shaderSources = d.shaderSources := by
  unfold Shader.getUniformLocation at h
  cases hl : d.uniforms.lookup name <;> rw [hl] at h <;> simp only at h
  case none =>
    split at h
    · simp at h
    · simp only [Except.ok.injEq, Prod.mk.injEq] at h
      obtain ⟨-, rfl⟩ := h
      simp
  case some loc0 =>
    split at h
    · simp only [Except.ok.injEq, Prod.mk.injEq] at h
      obtain ⟨-, rfl⟩ := h
      exact ⟨rfl, rfl, rfl, rfl⟩
    · split at h
      · simp at h
      · simp only [Except.ok.injEq, Prod.mk.injEq] at h
        obtain ⟨-, rfl⟩ := h
        simp

/-- `checkCodeCompleteness` on a vertex-only source map: the pixel stage is
taken from the defaults or the call fails. -/
theorem checkCodeCompleteness_vertexOnly (defaults : ShaderSources) (vsrc : String) :
    Shader.checkCodeCompleteness defaults [(ShaderType.vertex, vsrc)] =
      (match defaults.lookup ShaderType.pixel with
       | some p => .ok [(ShaderType.pixel, p), (ShaderType.vertex, vsrc)]
       | none => .error "Cannot create shader: no default pixel shader code!") := by
  unfold Shader.checkCodeCompleteness
  have h1 : (ShaderType.vertex == ShaderType.vertex) = true := rfl
  have h2 : (ShaderType.pixel == ShaderType.vertex) = false := rfl
  cases defaults.lookup ShaderType.pixel <;> simp [List.lookup_cons, h1, h2]

/-- `loadVolatile` succeeds whenever the shader exists and has source
code. -/
theorem loadVolatile_isOk {w : World} {id : Nat} {d : ShaderData}
    (hfind : w.find id = some d) (hs : d.shaderSources.isEmpty = false) :
    (Shader.loadVolatile w id).isOk = true := by
  unfold Shader.loadVolatile
  rw [hfind]
  simp only [hs, Bool.false_eq_true, if_false]
  split <;> rfl

/-- Claim C7: constructing a shader from a vertex-only source map succeeds
exactly when a default pixel source is present; a successful
`setDefaultSources` guarantees that, and with the pristine (empty) defaults
construction fails with the construction error. -/
theorem shaderConstruct_vertexOnly_iff (w : World) (id : Nat) (vsrc : String) :
    ((Shader.create w id [(ShaderType.vertex, vsrc)]).isOk = true ↔
        (w.defaultSources.lookup ShaderType.pixel).isSome = true) ∧
    (∀ src w₀, Shader.setDefaultSources w₀ src = .ok w →
        (w.defaultSources.lookup ShaderType.pixel).isSome = true) ∧
    (w.defaultSources = [] →
        Shader.create w id [(ShaderType.vertex, vsrc)] =
          .error "Cannot create shader: no default pixel shader code!") := by
  refine ⟨?_, ?_, ?_⟩
  · unfold Shader.create
    rw [if_neg (by simp)]
    dsimp only
    rw [checkCodeCompleteness_vertexOnly]
    cases hp : w.defaultSources.lookup ShaderType.pixel with
    | none => simp [Except.isOk, Except.toBool]
    | some p =>
        simp only [Option.isSome_some, iff_true]
        exact loadVolatile_isOk find_setShader_self rfl
  · intro src w₀ hset
    unfold Shader.setDefaultSources at hset
    split at hset
    · simp at hset
    · rename_i hcond
      simp only [Except.ok.injEq] at hset
      subst hset
      push_neg at hcond
      simpa using hcond.2
  · intro hds
    unfold Shader.create
    rw [if_neg (by simp)]
    dsimp only
    rw [checkCodeCompleteness_vertexOnly]
    simp [hds]

/-- Claim C8: with the uniform name resolvable, `sendFloat` rejects sizes
outside 1–4 (in particular 0 and 5) with the invalid-size error and
dispatches the size-specific driver call for sizes 1–4; `sendMatrix`
rejects sizes outside 2–4 (in particular 1 and 5) and dispatches for sizes
2–4. -/
theorem sendFloatMatrix_size_validation (w : World) (id : Nat) (d : ShaderData)
    (name : String)
    (hfind : w.find id = some d)
    (hloc : w.glUniformLoc d.program name ≠ -1) :
    (∀ size : Int, size < 1 ∨ size > 4 →
        Shader.sendFloat w id name size =
          .error ("Invalid variable size: " ++ toString size ++ " (expected 1-4).")) ∧
    (∀ size : Int, 1 ≤ size → size ≤ 4 →
        ∃ w₁, Shader.sendFloat w id name size =
          .ok (w₁, if size = 4 then .uniform4fv else if size = 3 then .uniform3fv
                   else if size = 2 then .uniform2fv else .uniform1fv)) ∧
    (∀ size : Int, size < 2 ∨ size > 4 →
        Shader.sendMatrix w id name size =
          .error ("Invalid matrix size: " ++ toString size ++ "x" ++ toString size ++
            " (can only set 2x2, 3x3 or 4x4 matrices).")) ∧
    (∀ size : Int, 2 ≤ size → size ≤ 4 →
        ∃ w₁, Shader.sendMatrix w id name size =
          .ok (w₁, if size = 4 then .uniformMatrix4fv else if size = 3 then .uniformMatrix3fv
                   else .uniformMatrix2fv)) := by
  have hframe := attach_frame w id true
  have hloc' : (Shader.attach w id true).glUniformLoc d.program name ≠ -1 := by
    rw [hframe.2.2.2.2.2.1]; exact hloc
  obtain ⟨loc, d₁, hok⟩ := getUniformLocation_ok_of_driver hloc'
  refine ⟨?_, ?_, ?_, ?_⟩
  · intro size hsize
    unfold Shader.sendFloat
    rw [hfind]
    dsimp only
    rw [hok]
    dsimp only
    rw [if_pos hsize]
  · intro size h1 h4
    unfold Shader.sendFloat
    rw [hfind]
    dsimp only
    rw [hok]
    dsimp only
    rw [if_neg (by omega)]
    exact ⟨_, rfl⟩
  · intro size hsize
    unfold Shader.sendMatrix
    rw [hfind]
    dsimp only
    rw [hok]
    dsimp only
    rw [if_pos hsize]
  · intro size h2 h4
    unfold Shader.sendMatrix
    rw [hfind]
    dsimp only
    rw [hok]
    dsimp only
    rw [if_neg (by omega)]
    exact ⟨_, rfl⟩

theorem shaderConstruct_vertexOnly_iff_witness :
    (Shader.create { exampleWorld with
        defaultSources := [(ShaderType.vertex, "dv"), (ShaderType.pixel, "dp")] }
      5 [(ShaderType.vertex, "v")]).isOk = true ∧
    Shader.create exampleWorld 5 [(ShaderType.vertex, "v")] =
      .error "Cannot create shader: no default pixel shader code!" :=
  ⟨(shaderConstruct_vertexOnly_iff { exampleWorld with
      defaultSources := [(ShaderType.vertex, "dv"), (ShaderType.pixel, "dp")] }
      5 "v").1.mpr (by decide),
   (shaderConstruct_vertexOnly_iff exampleWorld 5 "v").2.2 rfl⟩

theorem sendFloatMatrix_size_validation_witness :
    Shader.sendFloat exampleWorld 1 "u" 0 =
      .error "Invalid variable size: 0 (expected 1-4)." ∧
    (∃ w₁, Shader.sendFloat exampleWorld 1 "u" 1 = .ok (w₁, .uniform1fv)) ∧
    Shader.sendMatrix exampleWorld 1 "u" 5 =
      .error "Invalid matrix size: 5x5 (can only set 2x2, 3x3 or 4x4 matrices)." := by
  have h := sendFloatMatrix_size_validation exampleWorld 1 exampleShader "u" rfl (by decide)
  exact ⟨h.1 0 (Or.inl (by decide)), h.2.1 1 (by decide) (by decide),
    h.2.2.1 5 (Or.inr (by decide))⟩

/-! ## `getTextureUnit` lemmas -/

/-- A memoised name returns its recorded unit and leaves the shader
untouched. -/
theorem getTextureUnit_hit {tc : List Int} {d : ShaderData} {name : String} {u : Nat}
    (h : d.textureUnitPool.lookup name = some u) :
    Shader.getTextureUnit tc d name = .ok (u, d) := by
  unfold Shader.getTextureUnit
  rw [h]

/-- Anatomy of a successful `getTextureUnit`: only the pool can change, by
prepending the new assignment, whose unit is positive; the queried name
maps to the returned unit afterwards. -/
theorem getTextureUnit_ok_anatomy {tc : List Int} {d : ShaderData} {name : String}
    {u : Nat} {d' : ShaderData}
    (h : Shader.getTextureUnit tc d name = .ok (u, d')) :
    d'.activeTextureUnits = d.activeTextureUnits ∧ d'.uniforms = d.uniforms ∧
    d'.program = d.program ∧ d'.shaderSources = d.shaderSources ∧
    d'.textureUnitPool.lookup name = some u ∧
    (d'.textureUnitPool = d.textureUnitPool ∨
      (d'.textureUnitPool = (name, u) :: d.textureUnitPool ∧ 1 ≤ u ∧
        d.textureUnitPool.lookup name = none)) := by
  unfold Shader.getTextureUnit at h
  cases hp : d.textureUnitPool.lookup name <;> rw [hp] at h
  case some u0 =>
    simp only [Except.ok.injEq, Prod.mk.injEq] at h
    obtain ⟨rfl, rfl⟩ := h
    exact ⟨rfl, rfl, rfl, rfl, hp, Or.inl rfl⟩
  case none =>
    cases h2 : tc.findIdx? (fun c => c == 0) <;> rw [h2] at h
    case some i =>
      simp only [Except.ok.injEq, Prod.mk.injEq] at h
      obtain ⟨rfl, rfl⟩ := h
      refine ⟨rfl, rfl, rfl, rfl, ?_, Or.inr ⟨rfl, by omega, rfl⟩⟩
      simp [List.lookup_cons]
    case none =>
      cases h3 : d.activeTextureUnits.findIdx? (fun a => a == 0) <;> rw [h3] at h
      case none => simp at h
      case some j =>
        simp only [Except.ok.injEq, Prod.mk.injEq] at h
        obtain ⟨rfl, rfl⟩ := h
        refine ⟨rfl, rfl, rfl, rfl, ?_, Or.inr ⟨rfl, by omega, rfl⟩⟩
        simp [List.lookup_cons]

/-- Pool-lookup preservation across a successful `getTextureUnit`. -/
theorem getTextureUnit_pool_preserved {tc : List Int} {d : ShaderData} {name : String}
    {u : Nat} {d' : ShaderData}
    (h : Shader.getTextureUnit tc d name = .ok (u, d'))
    {nm : String} {uu : Nat} (hnm : d.textureUnitPool.lookup nm = some uu) :
    d'.textureUnitPool.lookup nm = some uu := by
  obtain ⟨-, -, -, -, hlk, hpool⟩ := getTextureUnit_ok_anatomy h
  cases hpool with
  | inl he => rw [he]; exact hnm
  | inr he =>
      obtain ⟨he, -, hnone⟩ := he
      have hne : nm ≠ name := by
        intro hcontra
        rw [hcontra, hnone] at hnm
        exact Option.noConfusion hnm
      rw [he, List.lookup_cons]
      have hb : (nm == name) = false := beq_false_of_ne hne
      simp [hb, hnm]

/-- Fresh-name behaviour of `getTextureUnit`, expressed through the
first-zero characterisation of `std::find`. -/
theorem getTextureUnit_fresh_cases {tc : List Int} {d : ShaderData} {name : String}
    (hp : d.textureUnitPool.lookup name = none) :
    (∀ u d', Shader.getTextureUnit tc d name = .ok (u, d') →
      1 ≤ u ∧ d'.textureUnitPool = (name, u) :: d.textureUnitPool ∧
      ((u - 1 < tc.length ∧ tc.getD (u - 1) 0 = 0 ∧
          (∀ j, j < u - 1 → tc.getD j 0 ≠ 0)) ∨
       ((∀ j, j < tc.length → tc.getD j 0 ≠ 0) ∧
          u - 1 < d.activeTextureUnits.length ∧
          d.activeTextureUnits.getD (u - 1) 0 = 0 ∧
          (∀ j, j < u - 1 → d.activeTextureUnits.getD j 0 ≠ 0)))) ∧
    ((∀ j, j < tc.length → tc.getD j 0 ≠ 0) →
     (∀ j, j < d.activeTextureUnits.length → d.activeTextureUnits.getD j 0 ≠ 0) →
      Shader.getTextureUnit tc d name = .error "No more texture units available for shader.") := by
  constructor
  · intro u d' h
    unfold Shader.getTextureUnit at h
    rw [hp] at h
    cases h2 : tc.findIdx? (fun c => c == 0) <;> rw [h2] at h
    case some i =>
      simp only [Except.ok.injEq, Prod.mk.injEq] at h
      obtain ⟨rfl, rfl⟩ := h
      obtain ⟨hlen, hzero, hfirst⟩ := findIdx?_eq_zero_some.mp h2
      exact ⟨by omega, rfl, Or.inl (by rw [Nat.add_sub_cancel]; exact ⟨hlen, hzero, hfirst⟩)⟩
    case none =>
      cases h3 : d.activeTextureUnits.findIdx? (fun a => a == 0) <;> rw [h3] at h
      case none => simp at h
      case some j =>
        simp only [Except.ok.injEq, Prod.mk.injEq] at h
        obtain ⟨rfl, rfl⟩ := h
        obtain ⟨hlen, hzero, hfirst⟩ := findIdx?_eq_zero_some.mp h3
        refine ⟨by omega, rfl, Or.inr ⟨findIdx?_eq_zero_none.mp h2,
          by rw [Nat.add_sub_cancel]; exact ⟨hlen, hzero, hfirst⟩⟩⟩
  · intro h2 h3
    unfold Shader.getTextureUnit
    rw [hp, findIdx?_eq_zero_none.mpr h2, findIdx?_eq_zero_none.mpr h3]

/-! ## Per-operation anatomy lemmas -/

theorem unloadVolatile_find_ne (w : World) {id' j : Nat} (h : j ≠ id') :
    (Shader.unloadVolatile w id').find j = w.find j := by
  unfold Shader.unloadVolatile
  cases hf : w.find id' with
  | none => rfl
  | some d₀ =>
      by_cases hc : w.currentShader = some id' <;>
        simp [hc, World.setShader, World.find, List.lookup_cons, beq_false_of_ne h]

theorem unloadVolatile_find_self (w : World) {id' : Nat} {d₀ : ShaderData}
    (hf : w.find id' = some d₀) :
    (Shader.unloadVolatile w id').find id' = some
      { d₀ with program := 0,
                activeTextureUnits := List.replicate w.maxTextureUnits 0,
                uniforms := [] } := by
  unfold Shader.unloadVolatile
  rw [hf]
  by_cases hc : w.currentShader = some id' <;>
    simp [hc, World.setShader, World.find, List.lookup_cons]

theorem unloadVolatile_counters (w : World) {id' : Nat} :
    (w.find id' = none ∧ (Shader.unloadVolatile w id').textureCounters = w.textureCounters) ∨
    (∃ d₀, w.find id' = some d₀ ∧
      (Shader.unloadVolatile w id').textureCounters =
        decrementLoop w.textureCounters d₀.activeTextureUnits) := by
  unfold Shader.unloadVolatile
  cases hf : w.find id' with
  | none => exact Or.inl ⟨rfl, rfl⟩
  | some d₀ =>
      refine Or.inr ⟨d₀, rfl, ?_⟩
      by_cases hc : w.currentShader = some id' <;> simp [hc, World.setShader]

theorem unloadVolatile_global_frame (w : World) (id' : Nat) :
    (Shader.unloadVolatile w id').maxTextureUnits = w.maxTextureUnits ∧
    (Shader.unloadVolatile w id').currentShader = w.currentShader ∧
    (Shader.unloadVolatile w id').defaultSources = w.defaultSources ∧
    (Shader.unloadVolatile w id').glUniformLoc = w.glUniformLoc ∧
    (Shader.unloadVolatile w id').nextProgram = w.nextProgram ∧
    (Shader.unloadVolatile w id').ctxTextureUnits = w.ctxTextureUnits := by
  unfold Shader.unloadVolatile
  cases hf : w.find id' with
  | none => simp
  | some d₀ =>
      by_cases hc : w.currentShader = some id' <;> simp [hc, World.setShader]

theorem loadVolatile_ok_anatomy {w : World} {id' : Nat} {w' : World}
    (h : Shader.loadVolatile w id' = .ok w') :
    ∃ d₀, w.find id' = some d₀ ∧ d₀.shaderSources.isEmpty = false ∧
      w'.textureCounters = w.textureCounters ∧
      w'.maxTextureUnits = w.maxTextureUnits ∧
      w'.defaultSources = w.defaultSources ∧
      w'.glUniformLoc = w.glUniformLoc ∧
      (∀ j, j ≠ id' → w'.find j = w.find j) ∧
      w'.find id' = some { d₀ with
          activeTextureUnits := List.replicate w.maxTextureUnits 0,
          program := w.nextProgram } ∧
      (w.currentShader = some id' →
        w'.currentShader = some id' ∧ w'.glProgram = w.nextProgram) ∧
      (w.currentShader ≠ some id' →
        w'.currentShader = w.currentShader ∧ w'.glProgram = w.glProgram) := by
  unfold Shader.loadVolatile at h
  cases hf : w.find id' <;> rw [hf] at h
  · exact absurd h (by simp)
  case some d₀ =>
  dsimp only at h
  split at h
  · exact absurd h (by simp)
  rename_i hne
  refine ⟨d₀, rfl, by simpa using hne, ?_⟩
  split at h <;> rename_i hcond <;> simp only [Except.ok.injEq] at h <;> subst h
  · have hc : w.currentShader = some id' := hcond
    refine ⟨?_, ?_, ?_, ?_, ?_, ?_, ?_, ?_⟩
    · rw [(attach_frame _ id' false).2.1]; rfl
    · rw [(attach_frame _ id' false).2.2.1]; rfl
    · rw [(attach_frame _ id' false).2.2.2.1]; rfl
    · rw [(attach_frame _ id' false).2.2.2.2.2.1]; rfl
    · intro j hj
      rw [attach_find]
      simp [World.find, World.setShader, List.lookup_cons, beq_false_of_ne hj]
    · rw [attach_find]
      simp [World.find, World.setShader, List.lookup_cons]
    · intro _
      constructor
      · simp [Shader.attach, World.find, World.setShader, List.lookup_cons]
      · simp [Shader.attach, World.find, World.setShader, List.lookup_cons]
    · intro hcontra
      exact absurd hc hcontra
  · have hc : ¬ w.currentShader = some id' := hcond
    refine ⟨rfl, rfl, rfl, rfl, ?_, find_setShader_self, ?_, ?_⟩
    · intro j hj
      exact find_setShader_ne hj
    · intro hcontra
      exact absurd hcontra hc
    · intro _
      exact ⟨rfl, rfl⟩

theorem sendFloat_ok_anatomy {w : World} {id' : Nat} {name : String} {size : Int}
    {w' : World} {c : UniformCall}
    (h : Shader.sendFloat w id' name size = .ok (w', c)) :
    w'.textureCounters = w.textureCounters ∧
    w'.maxTextureUnits = w.maxTextureUnits ∧
    w'.defaultSources = w.defaultSources ∧
    w'.glUniformLoc = w.glUniformLoc ∧
    w'.nextProgram = w.nextProgram ∧
    (∀ j, j ≠ id' → w'.find j = w.find j) ∧
    ∃ d₀ d₁, w.find id' = some d₀ ∧ w'.find id' = some d₁ ∧
      d₁.textureUnitPool = d₀.textureUnitPool ∧
      d₁.activeTextureUnits = d₀.activeTextureUnits ∧
      d₁.program = d₀.program ∧ d₁.shaderSources = d₀.shaderSources := by
  unfold Shader.sendFloat at h
  cases hf : w.find id' <;> rw [hf] at h
  · exact absurd h (by simp)
  case some d₀ =>
  dsimp only at h
  cases hgul : Shader.getUniformLocation (Shader.attach w id' true) d₀ name false <;>
    rw [hgul] at h
  · exact absurd h (by simp)
  case ok p =>
  obtain ⟨loc, d₁⟩ := p
  dsimp only at h
  split at h
  · exact absurd h (by simp)
  simp only [Except.ok.injEq, Prod.mk.injEq] at h
  obtain ⟨rfl, -⟩ := h
  have hfr := temporaryRestore_frame ((Shader.attach w id' true).setShader id' d₁) w.currentShader
  have hafr := attach_frame w id' true
  obtain ⟨hg1, hg2, hg3, hg4⟩ := getUniformLocation_frame hgul
  refine ⟨?_, ?_, ?_, ?_, ?_, ?_, d₀, d₁, rfl, ?_, hg1, hg2, hg3, hg4⟩
  · rw [hfr.2.1]
    show (Shader.attach w id' true).textureCounters = _
    rw [hafr.2.1]
  · rw [hfr.2.2.1]
    show (Shader.attach w id' true).maxTextureUnits = _
    rw [hafr.2.2.1]
  · rw [hfr.2.2.2.2.1]
    show (Shader.attach w id' true).defaultSources = _
    rw [hafr.2.2.2.1]
  · rw [hfr.2.2.2.2.2.1]
    show (Shader.attach w id' true).glUniformLoc = _
    rw [hafr.2.2.2.2.2.1]
  · rw [hfr.2.2.2.2.2.2.1]
    show (Shader.attach w id' true).nextProgram = _
    rw [hafr.2.2.2.2.2.2.1]
  · intro j hj
    rw [temporaryRestore_find, find_setShader_ne hj, attach_find]
  · rw [temporaryRestore_find, find_setShader_self]

theorem sendMatrix_ok_anatomy {w : World} {id' : Nat} {name : String} {size : Int}
    {w' : World} {c : UniformCall}
    (h : Shader.sendMatrix w id' name size = .ok (w', c)) :
    w'.textureCounters = w.textureCounters ∧
    w'.maxTextureUnits = w.maxTextureUnits ∧
    w'.defaultSources = w.defaultSources ∧
    w'.glUniformLoc = w.glUniformLoc ∧
    w'.nextProgram = w.nextProgram ∧
    (∀ j, j ≠ id' → w'.find j = w.find j) ∧
    ∃ d₀ d₁, w.find id' = some d₀ ∧ w'.find id' = some d₁ ∧
      d₁.textureUnitPool = d₀.textureUnitPool ∧
      d₁.activeTextureUnits = d₀.activeTextureUnits ∧
      d₁.program = d₀.program ∧ d₁.shaderSources = d₀.shaderSources := by
  unfold Shader.sendMatrix at h
  cases hf : w.find id' <;> rw [hf] at h
  · exact absurd h (by simp)
  case some d₀ =>
  dsimp only at h
  cases hgul : Shader.getUniformLocation (Shader.attach w id' true) d₀ name false <;>
    rw [hgul] at h
  · exact absurd h (by simp)
  case ok p =>
  obtain ⟨loc, d₁⟩ := p
  dsimp only at h
  split at h
  · exact absurd h (by simp)
  simp only [Except.ok.injEq, Prod.mk.injEq] at h
  obtain ⟨rfl, -⟩ := h
  have hfr := temporaryRestore_frame ((Shader.attach w id' true).setShader id' d₁) w.currentShader
  have hafr := attach_frame w id' true
  obtain ⟨hg1, hg2, hg3, hg4⟩ := getUniformLocation_frame hgul
  refine ⟨?_, ?_, ?_, ?_, ?_, ?_, d₀, d₁, rfl, ?_, hg1, hg2, hg3, hg4⟩
  · rw [hfr.2.1]
    show (Shader.attach w id' true).textureCounters = _
    rw [hafr.2.1]
  · rw [hfr.2.2.1]
    show (Shader.attach w id' true).maxTextureUnits = _
    rw [hafr.2.2.1]
  · rw [hfr.2.2.2.2.1]
    show (Shader.attach w id' true).defaultSources = _
    rw [hafr.2.2.2.1]
  · rw [hfr.2.2.2.2.2.1]
    show (Shader.attach w id' true).glUniformLoc = _
    rw [hafr.2.2.2.2.2.1]
  · rw [hfr.2.2.2.2.2.2.1]
    show (Shader.attach w id' true).nextProgram = _
    rw [hafr.2.2.2.2.2.2.1]
  · intro j hj
    rw [temporaryRestore_find, find_setShader_ne hj, attach_find]
  · rw [temporaryRestore_find, find_setShader_self]

theorem hasUniform_anatomy (w : World) (id' : Nat) (name : String) :
    (Shader.hasUniform w id' name).2.textureCounters = w.textureCounters ∧
    (Shader.hasUniform w id' name).2.maxTextureUnits = w.maxTextureUnits ∧
    (Shader.hasUniform w id' name).2.defaultSources = w.defaultSources ∧
    (∀ j, j ≠ id' → (Shader.hasUniform w id' name).2.find j = w.find j) ∧
    ((Shader.hasUniform w id' name).2.find id' = w.find id' ∨
      ∃ d₀ d₁, w.find id' = some d₀ ∧ (Shader.hasUniform w id' name).2.find id' = some d₁ ∧
        d₁.textureUnitPool = d₀.textureUnitPool ∧
        d₁.activeTextureUnits = d₀.activeTextureUnits) := by
  cases hf : w.find id' with
  | none =>
      simp [Shader.hasUniform, hf]
  | some d₀ =>
      cases hgul : Shader.getUniformLocation w d₀ name true with
      | error e =>
          simp [Shader.hasUniform, hf, hgul]
      | ok p =>
          obtain ⟨loc, d₁⟩ := p
          simp only [Shader.hasUniform, hf, hgul]
          obtain ⟨hg1, hg2, -, -⟩ := getUniformLocation_frame hgul
          exact ⟨rfl, rfl, rfl, fun j hj => find_setShader_ne hj,
            Or.inr ⟨d₀, d₁, rfl, find_setShader_self, hg1, hg2⟩⟩

/-- Anatomy of a successful `sendTexture`: the uniform location and the
texture unit resolve; afterwards the shader's slot for the unit holds the
texture, and the global counter for the unit was incremented exactly when
that slot was previously empty. -/
theorem sendTexture_ok_anatomy {w : World} {id' : Nat} {name : String} {tex : Nat}
    {w' : World}
    (h : Shader.sendTexture w id' name tex = .ok w') :
    ∃ d₀ d₁ d₂ loc u,
      w.find id' = some d₀ ∧
      Shader.getUniformLocation (Shader.attach w id' true) d₀ name false = .ok (loc, d₁) ∧
      Shader.getTextureUnit w.textureCounters d₁ name = .ok (u, d₂) ∧
      (∀ j, j ≠ id' → w'.find j = w.find j) ∧
      w'.find id' = some { d₂ with
          activeTextureUnits := d₂.activeTextureUnits.set (u - 1) tex } ∧
      w'.textureCounters =
        (if d₂.activeTextureUnits.getD (u - 1) 0 = 0 then
          w.textureCounters.set (u - 1) (w.textureCounters.getD (u - 1) 0 + 1)
        else w.textureCounters) ∧
      w'.maxTextureUnits = w.maxTextureUnits ∧
      w'.defaultSources = w.defaultSources ∧
      w'.glUniformLoc = w.glUniformLoc ∧
      w'.nextProgram = w.nextProgram := by
  unfold Shader.sendTexture at h
  cases hf : w.find id' <;> rw [hf] at h
  · exact absurd h (by simp)
  case some d₀ =>
  dsimp only at h
  cases hgul : Shader.getUniformLocation (Shader.attach w id' true) d₀ name false <;>
    rw [hgul] at h
  · exact absurd h (by simp)
  case ok p =>
  obtain ⟨loc, d₁⟩ := p
  dsimp only at h
  cases hgtu : Shader.getTextureUnit (Shader.attach w id' true).textureCounters d₁ name <;>
    rw [hgtu] at h
  · exact absurd h (by simp)
  case ok q =>
  obtain ⟨u, d₂⟩ := q
  dsimp only at h
  simp only [Except.ok.injEq] at h
  subst h
  have hctr : (Shader.attach w id' true).textureCounters = w.textureCounters :=
    (attach_frame w id' true).2.1
  rw [hctr] at hgtu
  refine ⟨d₀, d₁, d₂, loc, u, rfl, hgul, hgtu, ?_, ?_, ?_, ?_, ?_, ?_, ?_⟩
  · intro j hj
    rw [temporaryRestore_find, find_setShader_ne hj]
    by_cases hz : d₂.activeTextureUnits.getD (u - 1) 0 = 0
    · simp only [if_pos hz]
      exact attach_find w id' true j
    · simp only [if_neg hz]
      exact attach_find w id' true j
  · rw [temporaryRestore_find]
    exact find_setShader_self
  · rw [(temporaryRestore_frame _ _).2.1]
    by_cases hz : d₂.activeTextureUnits.getD (u - 1) 0 = 0
    · simp only [if_pos hz, World.setShader]
      show ((Shader.attach w id' true).textureCounters.set (u - 1)
        ((Shader.attach w id' true).textureCounters.getD (u - 1) 0 + 1)) = _
      rw [hctr]
    · simp only [if_neg hz, World.setShader]
      exact hctr
  · rw [(temporaryRestore_frame _ _).2.2.1]
    by_cases hz : d₂.activeTextureUnits.getD (u - 1) 0 = 0
    · simp only [if_pos hz, World.setShader]
      exact (attach_frame w id' true).2.2.1
    · simp only [if_neg hz, World.setShader]
      exact (attach_frame w id' true).2.2.1
  · rw [(temporaryRestore_frame _ _).2.2.2.2.1]
    by_cases hz : d₂.activeTextureUnits.getD (u - 1) 0 = 0
    · simp only [if_pos hz, World.setShader]
      exact (attach_frame w id' true).2.2.2.1
    · simp only [if_neg hz, World.setShader]
      exact (attach_frame w id' true).2.2.2.1
  · rw [(temporaryRestore_frame _ _).2.2.2.2.2.1]
    by_cases hz : d₂.activeTextureUnits.getD (u - 1) 0 = 0
    · simp only [if_pos hz, World.setShader]
      exact (attach_frame w id' true).2.2.2.2.2.1
    · simp only [if_neg hz, World.setShader]
      exact (attach_frame w id' true).2.2.2.2.2.1
  · rw [(temporaryRestore_frame _ _).2.2.2.2.2.2.1]
    by_cases hz : d₂.activeTextureUnits.getD (u - 1) 0 = 0
    · simp only [if_pos hz, World.setShader]
      exact (attach_frame w id' true).2.2.2.2.2.2.1
    · simp only [if_neg hz, World.setShader]
      exact (attach_frame w id' true).2.2.2.2.2.2.1

theorem create_ok_anatomy {w : World} {id' : Nat} {s : ShaderSources} {w' : World}
    (h : Shader.create w id' s = .ok w') :
    (∀ j, j ≠ id' → w'.find j = w.find j) ∧
    (∃ completed m, w'.find id' = some
        { shaderSources := completed, program := w.nextProgram, uniforms := [],
          textureUnitPool := [], activeTextureUnits := List.replicate m 0 }) ∧
    (w'.textureCounters = w.textureCounters ∨
      ∃ k, w'.textureCounters = w.textureCounters ++ List.replicate k 0) := by
  unfold Shader.create at h
  split at h
  · exact absurd h (by simp)
  dsimp only at h
  cases hchk : Shader.checkCodeCompleteness w.defaultSources s <;> rw [hchk] at h
  · exact absurd h (by simp)
  case ok completed =>
  dsimp only at h
  obtain ⟨d₀, hfind, hne, hctr, hmax, hds, hgl, hfj, hfid, -, -⟩ := loadVolatile_ok_anatomy h
  rw [find_setShader_self] at hfind
  simp only [Option.some.injEq] at hfind
  subst hfind
  refine ⟨?_, ⟨completed, (max (w.ctxTextureUnits - 1) 0).toNat, ?_⟩, ?_⟩
  · intro j hj
    exact (hfj j hj).trans (find_setShader_ne hj)
  · exact hfid
  · rw [hctr]
    by_cases hl : w.textureCounters.length < (max (w.ctxTextureUnits - 1) 0).toNat
    · right
      refine ⟨(max (w.ctxTextureUnits - 1) 0).toNat - w.textureCounters.length, ?_⟩
      show (if w.textureCounters.length < (max (w.ctxTextureUnits - 1) 0).toNat
        then _ else _ : List Int) = _
      rw [if_pos hl]
    · left
      show (if w.textureCounters.length < (max (w.ctxTextureUnits - 1) 0).toNat
        then _ else _ : List Int) = _
      rw [if_neg hl]

/-! ## Global invariants: nonnegative counters, positive pool units -/

theorem decrementLoop_nonneg {tc : List Int} (atu : List Nat)
    (h : ∀ c ∈ tc, 0 ≤ c) : ∀ c ∈ decrementLoop tc atu, 0 ≤ c := by
  induction tc generalizing atu with
  | nil => intro c hc; simp [decrementLoop] at hc
  | cons c0 tc ih =>
      intro c hc
      cases atu with
      | nil => exact h c hc
      | cons a rest =>
          simp only [decrementLoop, List.mem_cons] at hc
          rcases hc with rfl | hc
          · split
            · exact le_max_right _ _
            · exact h c0 (by simp)
          · exact ih rest (fun x hx => h x (by simp [hx])) c hc

theorem set_incr_nonneg {tc : List Int} {i : Nat}
    (h : ∀ c ∈ tc, 0 ≤ c) : ∀ c ∈ tc.set i (tc.getD i 0 + 1), 0 ≤ c := by
  intro c hc
  rcases List.mem_or_eq_of_mem_set hc with hmem | rfl
  · exact h c hmem
  · rcases lt_or_ge i tc.length with hi | hi
    · rw [getD_of_lt hi]
      have := h _ (List.getElem_mem hi)
      omega
    · rw [List.getD_eq_default _ _ hi]
      omega

theorem unloadVolatile_nonneg {w : World} (id : Nat) (hn : countersNonneg w) :
    countersNonneg (Shader.unloadVolatile w id) := by
  rcases @unloadVolatile_counters w id with ⟨-, he⟩ | ⟨d₀, -, he⟩
  · intro c hc; rw [he] at hc; exact hn c hc
  · intro c hc; rw [he] at hc; exact decrementLoop_nonneg _ hn c hc

/-- Every operation of the shader manager keeps all global texture-unit
usage counters nonnegative. -/
theorem wstep_countersNonneg {w w' : World} (h : WStep w w')
    (hn : countersNonneg w) : countersNonneg w' := by
  cases h with
  | create id s w2 hfresh hok =>
      obtain ⟨-, -, hc⟩ := create_ok_anatomy hok
      rcases hc with he | ⟨k, he⟩
      · intro c hc; rw [he] at hc; exact hn c hc
      · intro c hc
        rw [he] at hc
        rcases List.mem_append.mp hc with hmem | hmem
        · exact hn c hmem
        · rw [List.eq_of_mem_replicate hmem]
  | destroy id =>
      unfold Shader.destroy
      by_cases hcur : w.currentShader = some id
      · rw [if_pos hcur]
        apply unloadVolatile_nonneg
        intro c hc
        rw [(detach_frame w).2.1] at hc
        exact hn c hc
      · rw [if_neg hcur]
        exact unloadVolatile_nonneg id hn
  | attach id t =>
      intro c hc
      rw [(attach_frame w id t).2.1] at hc
      exact hn c hc
  | detach =>
      intro c hc
      rw [(detach_frame w).2.1] at hc
      exact hn c hc
  | load id w2 hok =>
      obtain ⟨d₀, -, -, hctr, -⟩ := loadVolatile_ok_anatomy hok
      intro c hc
      rw [hctr] at hc
      exact hn c hc
  | unload id => exact unloadVolatile_nonneg id hn
  | sendTexture id name tex w2 hok =>
      obtain ⟨d₀, d₁, d₂, loc, u, -, -, -, -, -, he, -⟩ := sendTexture_ok_anatomy hok
      intro c hc
      rw [he] at hc
      split at hc
      · exact set_incr_nonneg hn c hc
      · exact hn c hc
  | sendFloat id name size w2 c hok =>
      obtain ⟨hctr, -⟩ := sendFloat_ok_anatomy hok
      intro x hx
      rw [hctr] at hx
      exact hn x hx
  | sendMatrix id name size w2 c hok =>
      obtain ⟨hctr, -⟩ := sendMatrix_ok_anatomy hok
      intro x hx
      rw [hctr] at hx
      exact hn x hx
  | hasUniform id name =>
      obtain ⟨hctr, -⟩ := hasUniform_anatomy w id name
      intro x hx
      rw [hctr] at hx
      exact hn x hx
  | setDefaultSources s w2 hok =>
      unfold Shader.setDefaultSources at hok
      split at hok
      · exact absurd hok (by simp)
      · simp only [Except.ok.injEq] at hok
        subst hok
        exact hn

theorem destroy_find_ne (w : World) {id' j : Nat} (h : j ≠ id') :
    (Shader.destroy w id').find j = w.find j := by
  unfold Shader.destroy
  by_cases hc : w.currentShader = some id'
  · rw [if_pos hc, unloadVolatile_find_ne _ h]
    show List.lookup j (Shader.detach w).shaders = _
    rw [(detach_frame w).1]
    rfl
  · rw [if_neg hc, unloadVolatile_find_ne _ h]

theorem destroy_find_self (w : World) {id' : Nat} {d₀ : ShaderData}
    (hf : w.find id' = some d₀) :
    ∃ m, (Shader.destroy w id').find id' = some
      { d₀ with program := 0, activeTextureUnits := List.replicate m 0,
                uniforms := [] } := by
  unfold Shader.destroy
  by_cases hc : w.currentShader = some id'
  · rw [if_pos hc]
    refine ⟨(Shader.detach w).maxTextureUnits, unloadVolatile_find_self _ ?_⟩
    show List.lookup id' (Shader.detach w).shaders = _
    rw [(detach_frame w).1]
    exact hf
  · rw [if_neg hc]
    exact ⟨w.maxTextureUnits, unloadVolatile_find_self _ hf⟩

/-- Every operation preserves each live shader's recorded name-to-unit
assignments, and extends pools only by positively-numbered units. -/
theorem wstep_pool_preserved {w w' : World} (h : WStep w w') {id : Nat}
    {d : ShaderData} (hf : w.find id = some d) :
    ∃ d', w'.find id = some d' ∧
      (∀ nm uu, d.textureUnitPool.lookup nm = some uu →
        d'.textureUnitPool.lookup nm = some uu) ∧
      (∀ p ∈ d'.textureUnitPool, p ∈ d.textureUnitPool ∨ 1 ≤ p.2) := by
  cases h with
  | create id' s w2 hfresh hok =>
      obtain ⟨hfj, -, -⟩ := create_ok_anatomy hok
      have hne : id ≠ id' := by
        intro hcontra
        rw [hcontra, hfresh] at hf
        exact Option.noConfusion hf
      exact ⟨d, (hfj id hne).trans hf, fun nm uu hx => hx, fun p hp => Or.inl hp⟩
  | destroy id' =>
      by_cases hid : id = id'
      · subst hid
        obtain ⟨m, hd⟩ := destroy_find_self w hf
        exact ⟨_, hd, fun nm uu hx => hx, fun p hp => Or.inl hp⟩
      · exact ⟨d, (destroy_find_ne w hid).trans hf, fun nm uu hx => hx,
          fun p hp => Or.inl hp⟩
  | attach id' t =>
      exact ⟨d, (attach_find w id' t id).trans hf, fun nm uu hx => hx,
        fun p hp => Or.inl hp⟩
  | detach =>
      refine ⟨d, ?_, fun nm uu hx => hx, fun p hp => Or.inl hp⟩
      show List.lookup id (Shader.detach w).shaders = _
      rw [(detach_frame w).1]
      exact hf
  | load id' w2 hok =>
      obtain ⟨d₀, hfind, -, -, -, -, -, hfj, hfid, -, -⟩ := loadVolatile_ok_anatomy hok
      by_cases hid : id = id'
      · subst hid
        rw [hf] at hfind
        simp only [Option.some.injEq] at hfind
        subst hfind
        exact ⟨_, hfid, fun nm uu hx => hx, fun p hp => Or.inl hp⟩
      · exact ⟨d, (hfj id hid).trans hf, fun nm uu hx => hx, fun p hp => Or.inl hp⟩
  | unload id' =>
      by_cases hid : id = id'
      · subst hid
        exact ⟨_, unloadVolatile_find_self w hf, fun nm uu hx => hx,
          fun p hp => Or.inl hp⟩
      · exact ⟨d, (unloadVolatile_find_ne w hid).trans hf, fun nm uu hx => hx,
          fun p hp => Or.inl hp⟩
  | sendTexture id' name tex w2 hok =>
      obtain ⟨d₀, d₁, d₂, loc, u, hfind, hgul, hgtu, hfj, hfid, -, -⟩ :=
        sendTexture_ok_anatomy hok
      by_cases hid : id = id'
      · subst hid
        rw [hf] at hfind
        simp only [Option.some.injEq] at hfind
        subst hfind
        obtain ⟨hp1, -, -, -⟩ := getUniformLocation_frame hgul
        obtain ⟨-, -, -, -, -, hpool⟩ := getTextureUnit_ok_anatomy hgtu
        refine ⟨_, hfid, ?_, ?_⟩
        · intro nm uu hx
          show List.lookup nm d₂.textureUnitPool = some uu
          exact getTextureUnit_pool_preserved hgtu (hp1 ▸ hx)
        · intro p hp
          have hp' : p ∈ d₂.textureUnitPool := hp
          cases hpool with
          | inl he => rw [he, hp1] at hp'; exact Or.inl hp'
          | inr he =>
              obtain ⟨he, hu, -⟩ := he
              rw [he] at hp'
              rcases List.mem_cons.mp hp' with rfl | hmem
              · exact Or.inr hu
              · rw [hp1] at hmem
                exact Or.inl hmem
      · exact ⟨d, (hfj id hid).trans hf, fun nm uu hx => hx, fun p hp => Or.inl hp⟩
  | sendFloat id' name size w2 c hok =>
      obtain ⟨-, -, -, -, -, hfj, d₀, d₁, hfind, hfid, hp1, -, -, -⟩ :=
        sendFloat_ok_anatomy hok
      by_cases hid : id = id'
      · subst hid
        rw [hf] at hfind
        simp only [Option.some.injEq] at hfind
        subst hfind
        exact ⟨d₁, hfid, fun nm uu hx => hp1 ▸ hx, fun p hp => Or.inl (hp1 ▸ hp)⟩
      · exact ⟨d, (hfj id hid).trans hf, fun nm uu hx => hx, fun p hp => Or.inl hp⟩
  | sendMatrix id' name size w2 c hok =>
      obtain ⟨-, -, -, -, -, hfj, d₀, d₁, hfind, hfid, hp1, -, -, -⟩ :=
        sendMatrix_ok_anatomy hok
      by_cases hid : id = id'
      · subst hid
        rw [hf] at hfind
        simp only [Option.some.injEq] at hfind
        subst hfind
        exact ⟨d₁, hfid, fun nm uu hx => hp1 ▸ hx, fun p hp => Or.inl (hp1 ▸ hp)⟩
      · exact ⟨d, (hfj id hid).trans hf, fun nm uu hx => hx, fun p hp => Or.inl hp⟩
  | hasUniform id' name =>
      obtain ⟨-, -, -, hfj, hsel⟩ := hasUniform_anatomy w id' name
      by_cases hid : id = id'
      · subst hid
        cases hsel with
        | inl he => exact ⟨d, he.trans hf, fun nm uu hx => hx, fun p hp => Or.inl hp⟩
        | inr he =>
            obtain ⟨d₀, d₁, hfind, hfid, hp1, -⟩ := he
            rw [hf] at hfind
            simp only [Option.some.injEq] at hfind
            subst hfind
            exact ⟨d₁, hfid, fun nm uu hx => hp1 ▸ hx, fun p hp => Or.inl (hp1 ▸ hp)⟩
      · exact ⟨d, (hfj id hid).trans hf, fun nm uu hx => hx, fun p hp => Or.inl hp⟩
  | setDefaultSources s w2 hok =>
      unfold Shader.setDefaultSources at hok
      split at hok
      · exact absurd hok (by simp)
      · simp only [Except.ok.injEq] at hok
        subst hok
        exact ⟨d, hf, fun nm uu hx => hx, fun p hp => Or.inl hp⟩

theorem destroy_find_of_none (w : World) {id' : Nat} (hf : w.find id' = none)
    (j : Nat) : (Shader.destroy w id').find j = w.find j := by
  unfold Shader.destroy Shader.unloadVolatile
  by_cases hc : w.currentShader = some id'
  · rw [if_pos hc]
    dsimp only
    have hdf : (Shader.detach w).find id' = none := by
      show List.lookup id' (Shader.detach w).shaders = none
      rw [(detach_frame w).1]
      exact hf
    rw [hdf]
    show List.lookup j (Shader.detach w).shaders = _
    rw [(detach_frame w).1]
    rfl
  · rw [if_neg hc]
    dsimp only
    rw [hf]

/-- A shader visible after a step but absent before it was freshly created
and has an empty texture-unit pool. -/
theorem wstep_find_of_new {w w' : World} (h : WStep w w') {id : Nat}
    {d : ShaderData} (hfw : w.find id = none) (hfd : w'.find id = some d) :
    d.textureUnitPool = [] := by
  cases h with
  | create id' s w2 hfresh hok =>
      obtain ⟨hfj, ⟨completed, m, hfid⟩, -⟩ := create_ok_anatomy hok
      by_cases hid : id = id'
      · subst hid
        rw [hfid] at hfd
        simp only [Option.some.injEq] at hfd
        subst hfd
        rfl
      · rw [hfj id hid, hfw] at hfd
        exact Option.noConfusion hfd
  | destroy id' =>
      by_cases hid : id = id'
      · subst hid
        rw [destroy_find_of_none w hfw, hfw] at hfd
        exact Option.noConfusion hfd
      · rw [destroy_find_ne w hid, hfw] at hfd
        exact Option.noConfusion hfd
  | attach id' t =>
      rw [attach_find, hfw] at hfd
      exact Option.noConfusion hfd
  | detach =>
      have : (Shader.detach w).find id = w.find id := by
        show List.lookup id (Shader.detach w).shaders = _
        rw [(detach_frame w).1]
        rfl
      rw [this, hfw] at hfd
      exact Option.noConfusion hfd
  | load id' w2 hok =>
      obtain ⟨d₀, hfind, -, -, -, -, -, hfj, -, -, -⟩ := loadVolatile_ok_anatomy hok
      by_cases hid : id = id'
      · subst hid
        rw [hfw] at hfind
        exact Option.noConfusion hfind
      · rw [hfj id hid, hfw] at hfd
        exact Option.noConfusion hfd
  | unload id' =>
      by_cases hid : id = id'
      · subst hid
        unfold Shader.unloadVolatile at hfd
        rw [hfw] at hfd
        rw [hfw] at hfd
        exact Option.noConfusion hfd
      · rw [unloadVolatile_find_ne w hid, hfw] at hfd
        exact Option.noConfusion hfd
  | sendTexture id' name tex w2 hok =>
      obtain ⟨d₀, d₁, d₂, loc, u, hfind, -, -, hfj, -, -⟩ := sendTexture_ok_anatomy hok
      by_cases hid : id = id'
      · subst hid
        rw [hfw] at hfind
        exact Option.noConfusion hfind
      · rw [hfj id hid, hfw] at hfd
        exact Option.noConfusion hfd
  | sendFloat id' name size w2 c hok =>
      obtain ⟨-, -, -, -, -, hfj, d₀, d₁, hfind, -, -⟩ := sendFloat_ok_anatomy hok
      by_cases hid : id = id'
      · subst hid
        rw [hfw] at hfind
        exact Option.noConfusion hfind
      · rw [hfj id hid, hfw] at hfd
        exact Option.noConfusion hfd
  | sendMatrix id' name size w2 c hok =>
      obtain ⟨-, -, -, -, -, hfj, d₀, d₁, hfind, -, -⟩ := sendMatrix_ok_anatomy hok
      by_cases hid : id = id'
      · subst hid
        rw [hfw] at hfind
        exact Option.noConfusion hfind
      · rw [hfj id hid, hfw] at hfd
        exact Option.noConfusion hfd
  | hasUniform id' name =>
      obtain ⟨-, -, -, hfj, hsel⟩ := hasUniform_anatomy w id' name
      by_cases hid : id = id'
      · subst hid
        cases hsel with
        | inl he =>
            rw [he, hfw] at hfd
            exact Option.noConfusion hfd
        | inr he =>
            obtain ⟨d₀, d₁, hfind, -, -⟩ := he
            rw [hfw] at hfind
            exact Option.noConfusion hfind
      · rw [hfj id hid, hfw] at hfd
        exact Option.noConfusion hfd
  | setDefaultSources s w2 hok =>
      unfold Shader.setDefaultSources at hok
      split at hok
      · exact absurd hok (by simp)
      · simp only [Except.ok.injEq] at hok
        subst hok
        have hfd2 : w.find id = some d := hfd
        rw [hfw] at hfd2
        exact Option.noConfusion hfd2

/-- Reachability preserves the invariant that every recorded texture-unit
assignment of every live shader is at least 1. -/
theorem wstep_poolGE1 {w w' : World} (h : WStep w w')
    (hw : ∀ id d, w.find id = some d → poolGE1 d) :
    ∀ id d, w'.find id = some d → poolGE1 d := by
  intro id d hfd
  cases hfw : w.find id with
  | none =>
      intro p hp
      rw [wstep_find_of_new h hfw hfd] at hp
      exact absurd hp (List.not_mem_nil p)
  | some d₀ =>
      obtain ⟨d', hd', -, hsub⟩ := wstep_pool_preserved h hfw
      rw [hfd] at hd'
      simp only [Option.some.injEq] at hd'
      subst hd'
      intro p hp
      rcases hsub p hp with hmem | hge
      · exact hw id d₀ hfw p hmem
      · exact hge

theorem mem_of_lookup_eq_some {α β : Type} [BEq α] [LawfulBEq α]
    {l : List (α × β)} {k : α} {v : β}
    (h : l.lookup k = some v) : (k, v) ∈ l := by
  induction l with
  | nil => simp [List.lookup] at h
  | cons p rest ih =>
      obtain ⟨a, b⟩ := p
      rw [List.lookup_cons] at h
      cases hbe : k == a with
      | true =>
          rw [hbe] at h
          simp only [Option.some.injEq] at h
          subst h
          have : k = a := eq_of_beq hbe
          subst this
          exact List.mem_cons_self _ _
      | false =>
          rw [hbe] at h
          exact List.mem_cons_of_mem _ (ih h)

/-- Claim C1: `getTextureUnit` follows exactly the documented algorithm:
an already-assigned name returns its unit and keeps doing so on every
later call during the shader's lifetime (across arbitrary interleaved
operations); a fresh name claims the lowest-indexed unit whose global
usage counter is zero, otherwise the lowest-indexed empty slot of the
shader's own binding record, otherwise the call fails with the
no-texture-units error; successful results are always at least 1 (unit 0
is never assigned), the latter using the invariant that live shaders only
record positive units. -/
theorem getTextureUnit_algorithm :
    (∀ (tc : List Int) (d : ShaderData) (name : String) (u : Nat),
        d.textureUnitPool.lookup name = some u →
        Shader.getTextureUnit tc d name = .ok (u, d)) ∧
    (∀ (w w' : World) (id : Nat) (d : ShaderData) (name : String) (u : Nat),
        Relation.ReflTransGen WStep w w' →
        w.find id = some d →
        d.textureUnitPool.lookup name = some u →
        ∃ d', w'.find id = some d' ∧
          Shader.getTextureUnit w'.textureCounters d' name = .ok (u, d')) ∧
    (∀ (tc : List Int) (d : ShaderData) (name : String),
        d.textureUnitPool.lookup name = none →
        (∀ u d', Shader.getTextureUnit tc d name = .ok (u, d') →
          1 ≤ u ∧
          ((u - 1 < tc.length ∧ tc.getD (u - 1) 0 = 0 ∧
              ∀ j, j < u - 1 → tc.getD j 0 ≠ 0) ∨
           ((∀ j, j < tc.length → tc.getD j 0 ≠ 0) ∧
              u - 1 < d.activeTextureUnits.length ∧
              d.activeTextureUnits.getD (u - 1) 0 = 0 ∧
              ∀ j, j < u - 1 → d.activeTextureUnits.getD j 0 ≠ 0)) ∧
          d'.textureUnitPool.lookup name = some u) ∧
        ((∀ j, j < tc.length → tc.getD j 0 ≠ 0) →
         (∀ j, j < d.activeTextureUnits.length → d.activeTextureUnits.getD j 0 ≠ 0) →
          Shader.getTextureUnit tc d name =
            .error "No more texture units available for shader.")) ∧
    (∀ (w : World) (id : Nat) (d : ShaderData) (tc : List Int) (name : String)
        (u : Nat) (d' : ShaderData),
        (∀ jd dd, w.find jd = some dd → poolGE1 dd) →
        w.find id = some d →
        Shader.getTextureUnit tc d name = .ok (u, d') → 1 ≤ u) := by
  refine ⟨?_, ?_, ?_, ?_⟩
  · intro tc d name u h
    exact getTextureUnit_hit h
  · intro w w' id d name u hsteps hfind hpool
    induction hsteps with
    | refl => exact ⟨d, hfind, getTextureUnit_hit hpool⟩
    | tail hpre hstep ih =>
        obtain ⟨dmid, hfmid, hunit⟩ := ih
        have hpoolmid : dmid.textureUnitPool.lookup name = some u :=
          (getTextureUnit_ok_anatomy hunit).2.2.2.2.1
        obtain ⟨dlast, hflast, hpres, -⟩ := wstep_pool_preserved hstep hfmid
        exact ⟨dlast, hflast, getTextureUnit_hit (hpres name u hpoolmid)⟩
  · intro tc d name hp
    obtain ⟨h1, h2⟩ := @getTextureUnit_fresh_cases tc _ _ hp
    refine ⟨?_, h2⟩
    intro u d' hok
    obtain ⟨hu, hpool, hdisj⟩ := h1 u d' hok
    refine ⟨hu, hdisj, ?_⟩
    rw [hpool, List.lookup_cons]
    simp
  · intro w id d tc name u d' hw hfind hok
    cases hp : d.textureUnitPool.lookup name with
    | some u0 =>
        rw [getTextureUnit_hit hp] at hok
        simp only [Except.ok.injEq, Prod.mk.injEq] at hok
        obtain ⟨heq, -⟩ := hok
        rw [← heq]
        exact hw id d hfind (name, u0) (mem_of_lookup_eq_some hp)
    | none => exact ((getTextureUnit_fresh_cases hp).1 u d' hok).1

theorem getTextureUnit_algorithm_witness :
    Shader.getTextureUnit [(5 : Int)]
        { exampleShader with textureUnitPool := [("tex", 2)] } "tex" =
      .ok (2, { exampleShader with textureUnitPool := [("tex", 2)] }) ∧
    Shader.getTextureUnit [(1 : Int)]
        { exampleShader with activeTextureUnits := [7] } "new" =
      .error "No more texture units available for shader." ∧
    (∃ d', Shader.getTextureUnit [(0 : Int), 0] exampleShader "fresh" = .ok (1, d') ∧
      d'.textureUnitPool.lookup "fresh" = some 1) := by
  refine ⟨?_, ?_, ?_⟩
  · exact getTextureUnit_algorithm.1 [5] _ "tex" 2 rfl
  · exact (getTextureUnit_algorithm.2.2.1 [1]
      { exampleShader with activeTextureUnits := [7] } "new" rfl).2
      (by
        intro j hj
        simp only [List.length_cons, List.length_nil] at hj
        have hj0 : j = 0 := by omega
        subst hj0
        decide)
      (by
        intro j hj
        simp only [List.length_cons, List.length_nil] at hj
        have hj0 : j = 0 := by omega
        subst hj0
        decide)
  · refine ⟨{ exampleShader with textureUnitPool := [("fresh", 1)] }, rfl, ?_⟩
    have := (getTextureUnit_algorithm.2.2.1 [0, 0] exampleShader "fresh" rfl).1 1
      { exampleShader with textureUnitPool := [("fresh", 1)] } rfl
    exact this.2.2

theorem decrementLoop_getD (tc : List Int) (atu : List Nat) (i : Nat) :
    (decrementLoop tc atu).getD i 0 =
      if atu.getD i 0 > 0 then max (tc.getD i 0 - 1) 0 else tc.getD i 0 := by
  induction tc generalizing atu i with
  | nil =>
      simp only [decrementLoop]
      split <;> simp [List.getD]
  | cons c tc ih =>
      cases atu with
      | nil => simp [decrementLoop, List.getD]
      | cons a rest =>
          cases i with
          | zero => simp [decrementLoop, List.getD_cons_zero]
          | succ n =>
              simp only [decrementLoop, List.getD_cons_succ]
              exact ih rest n

/-- Claim C3: unloading a shader decrements the global counter, floored at
zero, exactly at the units where its binding record is non-empty; it
clears the record and the uniform cache but keeps the name-to-unit pool,
so that a reload re-establishes the same mapping; and no sequence of
operations ever drives a counter negative. -/
theorem unloadVolatile_counter_spec (w : World) (id : Nat) (d : ShaderData)
    (hfind : w.find id = some d) :
    (∀ i, (Shader.unloadVolatile w id).textureCounters.getD i 0 =
        if d.activeTextureUnits.getD i 0 > 0 then
          max (w.textureCounters.getD i 0 - 1) 0
        else w.textureCounters.getD i 0) ∧
    ((Shader.unloadVolatile w id).find id = some
        { d with program := 0,
                 activeTextureUnits := List.replicate w.maxTextureUnits 0,
                 uniforms := [] }) ∧
    (∀ w₂ name u, d.textureUnitPool.lookup name = some u →
        Shader.loadVolatile (Shader.unloadVolatile w id) id = .ok w₂ →
        ∃ d₂, w₂.find id = some d₂ ∧
          Shader.getTextureUnit w₂.textureCounters d₂ name = .ok (u, d₂)) ∧
    (∀ wa wb, Relation.ReflTransGen WStep wa wb →
        countersNonneg wa → countersNonneg wb) := by
  refine ⟨?_, unloadVolatile_find_self w hfind, ?_, ?_⟩
  · intro i
    rcases @unloadVolatile_counters w id with ⟨hnone, -⟩ | ⟨d₀, hsome, he⟩
    · rw [hfind] at hnone
      exact Option.noConfusion hnone
    · rw [hfind] at hsome
      simp only [Option.some.injEq] at hsome
      subst hsome
      rw [he]
      exact decrementLoop_getD _ _ i
  · intro w₂ name u hpool hok
    obtain ⟨d₀, hfind', -, -, -, -, -, -, hfid, -, -⟩ := loadVolatile_ok_anatomy hok
    rw [unloadVolatile_find_self w hfind] at hfind'
    simp only [Option.some.injEq] at hfind'
    subst hfind'
    refine ⟨_, hfid, getTextureUnit_hit ?_⟩
    exact hpool
  · intro wa wb hsteps hn
    induction hsteps with
    | refl => exact hn
    | tail hpre hstep ih => exact wstep_countersNonneg hstep ih

theorem unloadVolatile_counter_spec_witness :
    (Shader.unloadVolatile exampleWorldC3 1).textureCounters.getD 0 0 = 1 ∧
    (Shader.unloadVolatile exampleWorldC3 1).textureCounters.getD 1 0 = 3 ∧
    (∃ w₂ d₂, Shader.loadVolatile (Shader.unloadVolatile exampleWorldC3 1) 1 = .ok w₂ ∧
      w₂.find 1 = some d₂ ∧
      Shader.getTextureUnit w₂.textureCounters d₂ "t" = .ok (2, d₂)) := by
  have hspec := unloadVolatile_counter_spec exampleWorldC3 1 exampleShaderC3 rfl
  refine ⟨(hspec.1 0).trans (by decide), (hspec.1 1).trans (by decide), ?_⟩
  cases hload : Shader.loadVolatile (Shader.unloadVolatile exampleWorldC3 1) 1 with
  | error e =>
      have hok := @loadVolatile_isOk (Shader.unloadVolatile exampleWorldC3 1) 1 _
        (unloadVolatile_find_self _ rfl) rfl
      rw [hload] at hok
      exact absurd hok (by simp [Except.isOk, Except.toBool])
  | ok w₂ =>
      obtain ⟨d₂, hfd₂, hgtu⟩ := hspec.2.2.1 w₂ "t" 2 rfl hload
      exact ⟨w₂, d₂, rfl, hfd₂, hgtu⟩

/-- Claim C10: a volatile reload (`unloadVolatile` then `loadVolatile`) of
the currently attached shader leaves that shader attached with its freshly
created nonzero program bound as the context's current program; reloading
a shader that is not current leaves the process-wide current-shader
reference unchanged. -/
theorem volatileReload_current (w : World) (id : Nat) (d : ShaderData)
    (hfind : w.find id = some d) (hsrc : d.shaderSources.isEmpty = false)
    (hnp : 1 ≤ w.nextProgram) :
    (w.currentShader = some id →
      ∃ w₂ d₂, Shader.loadVolatile (Shader.unloadVolatile w id) id = .ok w₂ ∧
        w₂.currentShader = some id ∧ w₂.find id = some d₂ ∧
        w₂.glProgram = d₂.program ∧ d₂.program ≠ 0) ∧
    (w.currentShader ≠ some id →
      ∃ w₂, Shader.loadVolatile (Shader.unloadVolatile w id) id = .ok w₂ ∧
        w₂.currentShader = w.currentShader) := by
  have hfu := unloadVolatile_find_self w hfind
  have hgf := unloadVolatile_global_frame w id
  have hok := @loadVolatile_isOk (Shader.unloadVolatile w id) id _ hfu hsrc
  cases hload : Shader.loadVolatile (Shader.unloadVolatile w id) id with
  | error e =>
      rw [hload] at hok
      exact absurd hok (by simp [Except.isOk, Except.toBool])
  | ok w₂ =>
      obtain ⟨du, hfindu, -, -, -, -, -, -, hfid, hcur, hncur⟩ := loadVolatile_ok_anatomy hload
      rw [hfu] at hfindu
      simp only [Option.some.injEq] at hfindu
      subst hfindu
      constructor
      · intro hc
        have hcu : (Shader.unloadVolatile w id).currentShader = some id := by
          rw [hgf.2.1]; exact hc
        obtain ⟨hc₂, hp₂⟩ := hcur hcu
        refine ⟨w₂, _, rfl, hc₂, hfid, ?_, ?_⟩
        · rw [hp₂]
        · show (Shader.unloadVolatile w id).nextProgram ≠ 0
          rw [hgf.2.2.2.2.1]
          omega
      · intro hc
        have hcu : (Shader.unloadVolatile w id).currentShader ≠ some id := by
          rw [hgf.2.1]; exact hc
        obtain ⟨hc₂, -⟩ := hncur hcu
        refine ⟨w₂, rfl, ?_⟩
        rw [hc₂, hgf.2.1]

theorem volatileReload_current_witness :
    (∃ w₂ d₂, Shader.loadVolatile (Shader.unloadVolatile exampleWorldCur 1) 1 = .ok w₂ ∧
      w₂.currentShader = some 1 ∧ w₂.find 1 = some d₂ ∧
      w₂.glProgram = d₂.program ∧ d₂.program ≠ 0) ∧
    (∃ w₂, Shader.loadVolatile (Shader.unloadVolatile exampleWorld 1) 1 = .ok w₂ ∧
      w₂.currentShader = exampleWorld.currentShader) :=
  ⟨(volatileReload_current exampleWorldCur 1 exampleShader rfl rfl (by decide)).1 rfl,
   (volatileReload_current exampleWorld 1 exampleShader rfl rfl (by decide)).2
     (by decide)⟩

/-! ## Rebind-loop lemmas (for `Shader::attach` without `temporary`) -/

theorem rebindFrom_low (gl : List (Nat × Nat)) (atu : List Nat) (i u : Nat)
    (hu : u ≤ i) : bindingAt (rebindFrom gl atu i) u = bindingAt gl u := by
  induction atu generalizing gl i with
  | nil => rfl
  | cons a rest ih =>
      simp only [rebindFrom]
      rw [ih _ (i + 1) (by omega)]
      by_cases ha : a > 0
      · rw [if_pos ha]
        have hne : (i + 1 == u) = false := beq_false_of_ne (by omega)
        simp [bindingAt, List.find?_cons, hne]
      · rw [if_neg ha]

theorem rebindFrom_hit (gl : List (Nat × Nat)) (atu : List Nat) (i k : Nat)
    (hk : k < atu.length) (hnz : atu.getD k 0 ≠ 0) :
    bindingAt (rebindFrom gl atu i) (i + k + 1) = some (atu.getD k 0) := by
  induction atu generalizing gl i k with
  | nil => simp at hk
  | cons a rest ih =>
      cases k with
      | zero =>
          rw [List.getD_cons_zero] at hnz ⊢
          simp only [rebindFrom]
          rw [if_pos (Nat.pos_of_ne_zero hnz)]
          rw [rebindFrom_low _ rest (i + 1) (i + 1) (le_refl _)]
          simp [bindingAt, List.find?_cons]
      | succ k2 =>
          rw [List.getD_cons_succ] at hnz ⊢
          simp only [rebindFrom]
          have harith : i + (k2 + 1) + 1 = (i + 1) + k2 + 1 := by omega
          rw [harith]
          exact ih _ (i + 1) k2 (by simpa using hk) hnz

theorem rebindFrom_miss (gl : List (Nat × Nat)) (atu : List Nat) (i k : Nat)
    (hz : atu.getD k 0 = 0) :
    bindingAt (rebindFrom gl atu i) (i + k + 1) = bindingAt gl (i + k + 1) := by
  induction atu generalizing gl i k with
  | nil => rfl
  | cons a rest ih =>
      cases k with
      | zero =>
          rw [List.getD_cons_zero] at hz
          simp only [rebindFrom]
          rw [if_neg (by omega)]
          exact rebindFrom_low _ rest (i + 1) (i + 1) (le_refl _)
      | succ k2 =>
          rw [List.getD_cons_succ] at hz
          simp only [rebindFrom]
          have harith : i + (k2 + 1) + 1 = (i + 1) + k2 + 1 := by omega
          rw [harith]
          rw [ih _ (i + 1) k2 hz]
          by_cases ha : a > 0
          · rw [if_pos ha]
            have hne : (i + 1 == (i + 1) + k2 + 1) = false := beq_false_of_ne (by omega)
            simp [bindingAt, List.find?_cons, hne]
          · rw [if_neg ha]

/-- Effects of a temporary attach on the GL state. -/
theorem attach_temp_effects {w : World} {id : Nat} {d : ShaderData}
    (hf : w.find id = some d) :
    (Shader.attach w id true).glBound = w.glBound ∧
    (Shader.attach w id true).glActiveUnit = w.glActiveUnit ∧
    (Shader.attach w id true).currentShader = some id := by
  unfold Shader.attach
  rw [hf]
  by_cases hc : w.currentShader ≠ some id <;> simp [hc]

/-- Effects of a full (non-temporary) attach on the GL state. -/
theorem attach_nontemp_effects {w : World} {id : Nat} {d : ShaderData}
    (hf : w.find id = some d) :
    (Shader.attach w id false).glActiveUnit = 0 ∧
    (Shader.attach w id false).glBound = rebindFrom w.glBound d.activeTextureUnits 0 ∧
    (Shader.attach w id false).currentShader = some id := by
  unfold Shader.attach
  rw [hf]
  by_cases hc : w.currentShader ≠ some id <;> simp [hc]

theorem attach_setShader_find (w : World) (id : Nat) (d : ShaderData) :
    (Shader.attach (w.setShader id d) id false).find id = some d := by
  rw [attach_find]
  exact find_setShader_self

theorem attach_setShader_activeUnit (w : World) (id : Nat) (d : ShaderData) :
    (Shader.attach (w.setShader id d) id false).glActiveUnit = 0 :=
  (attach_nontemp_effects (@find_setShader_self w id d)).1

theorem attach_setShader_boundTexture (w : World) (id : Nat) (d : ShaderData) (u : Nat) :
    (Shader.attach (w.setShader id d) id false).boundTexture u =
      bindingAt (rebindFrom w.glBound d.activeTextureUnits 0) u := by
  show bindingAt (Shader.attach (w.setShader id d) id false).glBound u = _
  rw [(attach_nontemp_effects (@find_setShader_self w id d)).2.1]
  rfl

theorem attach_setShader_uniformValue (w : World) (id : Nat) (d : ShaderData) (loc : Int) :
    (Shader.attach (w.setShader id d) id false).uniformValue loc = w.uniformValue loc := by
  show ((Shader.attach (w.setShader id d) id false).glUniforms.find?
      (fun p => p.1 == loc)).map (·.2) = _
  rw [(attach_frame (w.setShader id d) id false).2.2.2.2.1]
  rfl

theorem attach_setShader_counters (w : World) (id : Nat) (d : ShaderData) :
    (Shader.attach (w.setShader id d) id false).textureCounters = w.textureCounters :=
  ((attach_frame (w.setShader id d) id false).2.1).trans rfl

theorem rebindFrom_extends (gl : List (Nat × Nat)) (atu : List Nat) (i : Nat) :
    ∃ pre, rebindFrom gl atu i = pre ++ gl := by
  induction atu generalizing gl i with
  | nil => exact ⟨[], rfl⟩
  | cons a rest ih =>
      simp only [rebindFrom]
      by_cases ha : a > 0
      · rw [if_pos ha]
        obtain ⟨pre, hp⟩ := ih ((i + 1, a) :: gl) (i + 1)
        exact ⟨pre ++ [(i + 1, a)], by rw [hp]; simp⟩
      · rw [if_neg ha]
        exact ih gl (i + 1)

/-- Any attach only pushes further bindings on top of the GL binding log. -/
theorem attach_glBound_extends (w : World) (id : Nat) (t : Bool) :
    ∃ pre, (Shader.attach w id t).glBound = pre ++ w.glBound := by
  unfold Shader.attach
  cases w.find id with
  | none => exact ⟨[], rfl⟩
  | some d =>
      by_cases h1 : w.currentShader ≠ some id <;> cases t <;> simp [h1] <;>
        first
          | exact ⟨[], rfl⟩
          | exact rebindFrom_extends _ _ _

theorem detach_glBound_extends (w : World) :
    ∃ pre, (Shader.detach w).glBound = pre ++ w.glBound := by
  unfold Shader.detach
  cases w.defaultShader with
  | none => exact ⟨[], rfl⟩
  | some p => exact attach_glBound_extends w p false

/-- The `TemporaryAttacher` restore only pushes further bindings on top of
the GL binding log; it never removes an already issued bind. -/
theorem temporaryRestore_glBound_extends (w : World) (prev : Option Nat) :
    ∃ pre, (temporaryRestore w prev).glBound = pre ++ w.glBound := by
  unfold temporaryRestore
  cases prev with
  | none => exact detach_glBound_extends w
  | some p => exact attach_glBound_extends w p false

theorem attach_activeUnit_zero (w : World) (id : Nat) (t : Bool)
    (h : w.glActiveUnit = 0) : (Shader.attach w id t).glActiveUnit = 0 := by
  unfold Shader.attach
  cases w.find id with
  | none => exact h
  | some d =>
      by_cases h1 : w.currentShader ≠ some id <;> cases t <;> simp [h1] <;> exact h

theorem detach_activeUnit_zero (w : World) (h : w.glActiveUnit = 0) :
    (Shader.detach w).glActiveUnit = 0 := by
  unfold Shader.detach
  cases w.defaultShader with
  | none => exact h
  | some p => exact attach_activeUnit_zero w p false h

theorem temporaryRestore_activeUnit_zero (w : World) (prev : Option Nat)
    (h : w.glActiveUnit = 0) : (temporaryRestore w prev).glActiveUnit = 0 := by
  unfold temporaryRestore
  cases prev with
  | none => exact detach_activeUnit_zero w h
  | some p => exact attach_activeUnit_zero w p false h

theorem temporaryRestore_counters (w : World) (prev : Option Nat) :
    (temporaryRestore w prev).textureCounters = w.textureCounters :=
  (temporaryRestore_frame w prev).2.1

theorem temporaryRestore_uniformValue (w : World) (prev : Option Nat) (loc : Int) :
    (temporaryRestore w prev).uniformValue loc = w.uniformValue loc := by
  show ((temporaryRestore w prev).glUniforms.find? (fun p => p.1 == loc)).map (·.2) = _
  rw [(temporaryRestore_frame w prev).2.2.2.1]
  rfl

/-- Claim C2 (amended): every successful `sendTexture(name, tex)` call on
any shader binds `tex` to the unit assigned to `name` — the bind is issued
during the call, so the final GL binding log extends the prior log with
that bind, and after the `TemporaryAttacher` restore the binding is still
in place whenever this shader is the currently attached one (the restore
re-attaches the previously current shader, re-binding its recorded
textures) — writes the unit index into the resolved uniform location,
leaves the active-unit selector at 0, records the texture handle in the
shader's per-unit list regardless of its value, and increments the global
usage counter for that unit exactly when the shader's per-unit record for
the unit was empty (zero) before the call: for non-zero texture handles
this coincides with the first time the shader records a non-empty
binding, but a zero handle also triggers the increment, which refutes the
original increment wording. -/
theorem sendTexture_effects_amended (w : World) (id : Nat) (d : ShaderData)
    (name : String) (tex : Nat) (w' : World)
    (hfind : w.find id = some d)
    (h : Shader.sendTexture w id name tex = .ok w') :
    ∃ u d' loc d₁,
      Shader.getUniformLocation (Shader.attach w id true) d name false = .ok (loc, d₁) ∧
      w'.find id = some d' ∧
      d'.textureUnitPool.lookup name = some u ∧
      d'.activeTextureUnits = d.activeTextureUnits.set (u - 1) tex ∧
      (∃ pre, w'.glBound = pre ++ (u, tex) :: w.glBound) ∧
      (w.currentShader = some id → w'.boundTexture u = some tex) ∧
      w'.uniformValue loc = some u ∧
      w'.glActiveUnit = 0 ∧
      (d.activeTextureUnits.getD (u - 1) 0 = 0 →
        w'.textureCounters = w.textureCounters.set (u - 1)
          (w.textureCounters.getD (u - 1) 0 + 1)) ∧
      (d.activeTextureUnits.getD (u - 1) 0 ≠ 0 →
        w'.textureCounters = w.textureCounters) := by
  unfold Shader.sendTexture at h
  rw [hfind] at h
  dsimp only at h
  cases hgul : Shader.getUniformLocation (Shader.attach w id true) d name false <;>
    rw [hgul] at h
  · exact absurd h (by simp)
  case ok p =>
  obtain ⟨loc, d₁⟩ := p
  dsimp only at h
  cases hgtu : Shader.getTextureUnit (Shader.attach w id true).textureCounters d₁ name <;>
    rw [hgtu] at h
  · exact absurd h (by simp)
  case ok q =>
  obtain ⟨u, d₂⟩ := q
  dsimp only at h
  simp only [Except.ok.injEq] at h
  subst h
  have hatu : d₂.activeTextureUnits = d.activeTextureUnits :=
    (getTextureUnit_ok_anatomy hgtu).1.trans (getUniformLocation_frame hgul).2.1
  have hpool : d₂.textureUnitPool.lookup name = some u :=
    (getTextureUnit_ok_anatomy hgtu).2.2.2.2.1
  have hbhead : ∀ gl : List (Nat × Nat),
      bindingAt ((u, tex) :: gl) u = some tex := by
    intro gl
    simp [bindingAt, List.find?_cons]
  have hbound : ∀ gl : List (Nat × Nat),
      bindingAt (rebindFrom ((u, tex) :: gl)
        (d₂.activeTextureUnits.set (u - 1) tex) 0) u = some tex := by
    intro gl
    rcases Nat.eq_zero_or_pos u with hu | hu
    · subst hu
      rw [rebindFrom_low _ _ 0 0 (le_refl 0)]
      exact hbhead gl
    · have hueq : 0 + (u - 1) + 1 = u := by omega
      by_cases hsv : (d₂.activeTextureUnits.set (u - 1) tex).getD (u - 1) 0 = 0
      · have hm := rebindFrom_miss ((u, tex) :: gl)
          (d₂.activeTextureUnits.set (u - 1) tex) 0 (u - 1) hsv
        rw [hueq] at hm
        rw [hm]
        exact hbhead gl
      · have hklen : u - 1 < (d₂.activeTextureUnits.set (u - 1) tex).length := by
          by_contra hge
          exact hsv (List.getD_eq_default _ _ (by omega))
        have hh := rebindFrom_hit ((u, tex) :: gl)
          (d₂.activeTextureUnits.set (u - 1) tex) 0 (u - 1) hklen hsv
        rw [hueq] at hh
        rw [hh]
        have hk : u - 1 < d₂.activeTextureUnits.length := by simpa using hklen
        rw [getD_set_self hk]
  by_cases hz : d₂.activeTextureUnits.getD (u - 1) 0 = 0
  · simp only [if_pos hz]
    refine ⟨u, { d₂ with activeTextureUnits := d₂.activeTextureUnits.set (u - 1) tex },
      loc, d₁, rfl, ?_, hpool, ?_, ?_, ?_, ?_, ?_, ?_, ?_⟩
    · rw [temporaryRestore_find]
      exact find_setShader_self
    · show d₂.activeTextureUnits.set (u - 1) tex = _
      rw [hatu]
    · rw [show w.glBound = (Shader.attach w id true).glBound from
        ((attach_temp_effects hfind).1).symm]
      exact temporaryRestore_glBound_extends _ w.currentShader
    · intro hc
      rw [hc]
      simp only [temporaryRestore]
      rw [attach_setShader_boundTexture]
      exact hbound _
    · rw [temporaryRestore_uniformValue]
      show ((((Shader.attach w id true).glUniforms.cons (loc, u)).find?
        (fun p => p.1 == loc)).map (·.2)) = some u
      simp [List.find?_cons]
    · exact temporaryRestore_activeUnit_zero _ _ rfl
    · intro _
      rw [temporaryRestore_counters]
      show (Shader.attach w id true).textureCounters.set (u - 1)
        ((Shader.attach w id true).textureCounters.getD (u - 1) 0 + 1) = _
      rw [(attach_frame w id true).2.1]
    · intro hcontra
      rw [hatu] at hz
      exact absurd hz hcontra
  · simp only [if_neg hz]
    refine ⟨u, { d₂ with activeTextureUnits := d₂.activeTextureUnits.set (u - 1) tex },
      loc, d₁, rfl, ?_, hpool, ?_, ?_, ?_, ?_, ?_, ?_, ?_⟩
    · rw [temporaryRestore_find]
      exact find_setShader_self
    · show d₂.activeTextureUnits.set (u - 1) tex = _
      rw [hatu]
    · rw [show w.glBound = (Shader.attach w id true).glBound from
        ((attach_temp_effects hfind).1).symm]
      exact temporaryRestore_glBound_extends _ w.currentShader
    · intro hc
      rw [hc]
      simp only [temporaryRestore]
      rw [attach_setShader_boundTexture]
      exact hbound _
    · rw [temporaryRestore_uniformValue]
      show ((((Shader.attach w id true).glUniforms.cons (loc, u)).find?
        (fun p => p.1 == loc)).map (·.2)) = some u
      simp [List.find?_cons]
    · exact temporaryRestore_activeUnit_zero _ _ rfl
    · intro hcontra
      rw [hatu] at hz
      exact absurd hcontra hz
    · intro _
      rw [temporaryRestore_counters]
      show (Shader.attach w id true).textureCounters = _
      rw [(attach_frame w id true).2.1]

/-- Claim C2 counterexample: on a fresh shader, sending texture handle 0
twice under the same uniform name increments the global usage counter for
the claimed unit on both calls (the counter ends at 2) while the shader's
per-unit record never holds a non-empty texture (it stays 0).  The claim
as stated — the counter is incremented only the first time the shader
records a non-empty binding for the unit — is therefore false: two
increments happen and no non-empty binding is ever recorded. -/
theorem sendTexture_counter_counterexample :
    ((Shader.sendTexture exampleWorld1 1 "t" 0).bind
        (fun w1 => Shader.sendTexture w1 1 "t" 0)).map
      (fun w2 => (w2.textureCounters,
        (w2.find 1).map (fun d => d.activeTextureUnits))) =
      .ok ([2], some [0]) := by
  rfl

theorem sendTexture_effects_amended_witness :
    ∃ w' u d' loc d₁,
      Shader.sendTexture exampleWorldCur 1 "t" 9 = .ok w' ∧
      Shader.getUniformLocation (Shader.attach exampleWorldCur 1 true)
        exampleShader "t" false = .ok (loc, d₁) ∧
      w'.find 1 = some d' ∧
      d'.textureUnitPool.lookup "t" = some u ∧
      d'.activeTextureUnits = exampleShader.activeTextureUnits.set (u - 1) 9 ∧
      (∃ pre, w'.glBound = pre ++ (u, 9) :: exampleWorldCur.glBound) ∧
      w'.boundTexture u = some 9 ∧
      w'.uniformValue loc = some u ∧
      w'.glActiveUnit = 0 ∧
      (exampleShader.activeTextureUnits.getD (u - 1) 0 = 0 →
        w'.textureCounters = exampleWorldCur.textureCounters.set (u - 1)
          (exampleWorldCur.textureCounters.getD (u - 1) 0 + 1)) := by
  have hisok : (Shader.sendTexture exampleWorldCur 1 "t" 9).isOk = true := by rfl
  cases hsend : Shader.sendTexture exampleWorldCur 1 "t" 9 with
  | error e =>
      rw [hsend] at hisok
      exact absurd hisok (by simp [Except.isOk, Except.toBool])
  | ok w' =>
      obtain ⟨u, d', loc, d₁, hg, hfd, hpool, hatu, hext, hcurb, huv, hau, hinc, -⟩ :=
        sendTexture_effects_amended exampleWorldCur 1 exampleShader "t" 9 w' rfl hsend
      exact ⟨w', u, d', loc, d₁, rfl, hg, hfd, hpool, hatu, hext, hcurb rfl, huv, hau, hinc⟩

theorem getD_zero_of_all_zero {l : List Nat} (h : ∀ a ∈ l, a = 0) (i : Nat) :
    l.getD i 0 = 0 := by
  rcases lt_or_ge i l.length with hi | hi
  · rw [getD_of_lt hi]
    exact h _ (List.getElem_mem hi)
  · exact List.getD_eq_default _ _ hi

theorem getD_one_zero_inv {l : List Int} {i : Nat} (h : l.getD i 1 = 0) :
    i < l.length ∧ l.getD i 0 = 0 := by
  rcases lt_or_ge i l.length with hi | hi
  · rw [getD_of_lt hi] at h
    rw [getD_of_lt hi]
    exact ⟨hi, h⟩
  · rw [List.getD_eq_default _ _ hi] at h
    exact absurd h (by norm_num)

/-- Claim C4: when two distinct fresh shaders each send one texture
uniform and, at the moment of the second request, some global usage
counter is still zero (fewer units in use than the maximum), the two
shaders are assigned distinct texture units — a unit claimed by one
shader is not reused by the other until all units are exhausted. -/
theorem distinct_units_for_distinct_shaders (w : World) (A B : Nat)
    (dA dB : ShaderData) (nameA nameB : String) (texA texB : Nat)
    (w1 w2 : World) (uA uB : Nat) (dA2 dB2 : ShaderData)
    (hAB : A ≠ B)
    (hfA : w.find A = some dA) (hfB : w.find B = some dB)
    (hpoolA : dA.textureUnitPool = []) (hpoolB : dB.textureUnitPool = [])
    (hatuA : ∀ a ∈ dA.activeTextureUnits, a = 0)
    (hnn : countersNonneg w)
    (h1 : Shader.sendTexture w A nameA texA = .ok w1)
    (h2 : Shader.sendTexture w1 B nameB texB = .ok w2)
    (hfA2 : w1.find A = some dA2)
    (huA : dA2.textureUnitPool.lookup nameA = some uA)
    (hfB2 : w2.find B = some dB2)
    (huB : dB2.textureUnitPool.lookup nameB = some uB)
    (hfree : ∃ i, w1.textureCounters.getD i 1 = 0) :
    uA ≠ uB := by
  obtain ⟨d₀A, d₁A, d₂A, locA, uA', hfindA, hgulA, hgtuA, hfjA, hfidA, hctrA, -⟩ :=
    sendTexture_ok_anatomy h1
  obtain ⟨d₀B, d₁B, d₂B, locB, uB', hfindB, hgulB, hgtuB, hfjB, hfidB, hctrB, -⟩ :=
    sendTexture_ok_anatomy h2
  rw [hfA] at hfindA
  simp only [Option.some.injEq] at hfindA
  subst hfindA
  rw [hfA2] at hfidA
  simp only [Option.some.injEq] at hfidA
  subst hfidA
  have huA' : uA' = uA := by
    have hp := (getTextureUnit_ok_anatomy hgtuA).2.2.2.2.1
    have h2s : some uA' = some uA := hp.symm.trans huA
    simpa using h2s
  rw [huA'] at hgtuA hctrA
  rw [hfB2] at hfidB
  simp only [Option.some.injEq] at hfidB
  subst hfidB
  have huB' : uB' = uB := by
    have hp := (getTextureUnit_ok_anatomy hgtuB).2.2.2.2.1
    have h2s : some uB' = some uB := hp.symm.trans huB
    simpa using h2s
  rw [huB'] at hgtuB hctrB
  rw [hfjA B (Ne.symm hAB), hfB] at hfindB
  simp only [Option.some.injEq] at hfindB
  subst hfindB
  have hp1A : d₁A.textureUnitPool = [] :=
    (getUniformLocation_frame hgulA).1.trans hpoolA
  have hp1B : d₁B.textureUnitPool = [] :=
    (getUniformLocation_frame hgulB).1.trans hpoolB
  have hfreshA := (getTextureUnit_fresh_cases (by rw [hp1A]; rfl)).1 uA d₂A hgtuA
  have hfreshB := (getTextureUnit_fresh_cases (by rw [hp1B]; rfl)).1 uB d₂B hgtuB
  have hatuA1 : d₂A.activeTextureUnits.getD (uA - 1) 0 = 0 := by
    rw [(getTextureUnit_ok_anatomy hgtuA).1, (getUniformLocation_frame hgulA).2.1]
    exact getD_zero_of_all_zero hatuA _
  rw [if_pos hatuA1] at hctrA
  have hw1 : ∀ j, j < w1.textureCounters.length →
      (w.textureCounters.getD j 0 ≠ 0 ∨ j = uA - 1) →
      w1.textureCounters.getD j 0 ≠ 0 := by
    intro j hj hcase
    rw [hctrA] at hj ⊢
    rcases eq_or_ne j (uA - 1) with rfl | hne
    · rw [List.length_set] at hj
      rw [getD_set_self hj]
      have h0 : (0 : Int) ≤ w.textureCounters.getD (uA - 1) 0 := by
        rcases lt_or_ge (uA - 1) w.textureCounters.length with hjl | hjl
        · rw [getD_of_lt hjl]
          exact hnn _ (List.getElem_mem hjl)
        · rw [List.getD_eq_default _ _ hjl]
      omega
    · rw [getD_set_ne (fun hcontra => hne hcontra.symm)]
      rcases hcase with hc | hc
      · exact hc
      · exact absurd hc hne
  rcases hfreshA.2.2 with ⟨hlenA, hzA, -⟩ | ⟨hnzA, -⟩
  · -- A claimed the first globally-unused unit
    have hw1A : w1.textureCounters.getD (uA - 1) 0 = 1 := by
      rw [hctrA, getD_set_self hlenA, hzA]
      norm_num
    rcases hfreshB.2.2 with ⟨-, hzB, -⟩ | ⟨hnzB, -⟩
    · intro hcontra
      rw [← hcontra] at hzB
      rw [hw1A] at hzB
      exact absurd hzB (by norm_num)
    · obtain ⟨i, hfi⟩ := hfree
      obtain ⟨hilen, hi0⟩ := getD_one_zero_inv hfi
      exact absurd hi0 (hnzB i hilen)
  · -- no unit was globally unused at A's request: contradiction with hfree
    obtain ⟨i, hfi⟩ := hfree
    obtain ⟨hilen, hi0⟩ := getD_one_zero_inv hfi
    exact absurd hi0 (hw1 i hilen (by
      rcases eq_or_ne i (uA - 1) with rfl | hne
      · exact Or.inr rfl
      · refine Or.inl ?_
        rw [hctrA, List.length_set] at hilen
        exact hnzA i hilen))

theorem distinct_units_for_distinct_shaders_witness :
    ∃ w1 w2 uA uB dA2 dB2,
      Shader.sendTexture exampleWorld2 1 "s" 4 = .ok w1 ∧
      Shader.sendTexture w1 2 "t" 7 = .ok w2 ∧
      w1.find 1 = some dA2 ∧ dA2.textureUnitPool.lookup "s" = some uA ∧
      w2.find 2 = some dB2 ∧ dB2.textureUnitPool.lookup "t" = some uB ∧
      uA ≠ uB := by
  have h1ok : (Shader.sendTexture exampleWorld2 1 "s" 4).isOk = true := by rfl
  cases h1 : Shader.sendTexture exampleWorld2 1 "s" 4 with
  | error e =>
      rw [h1] at h1ok
      exact absurd h1ok (by simp [Except.isOk, Except.toBool])
  | ok w1 =>
  have htc1 : w1.textureCounters = [1, 0] := by
    have hmap : (Shader.sendTexture exampleWorld2 1 "s" 4).map World.textureCounters
        = .ok [1, 0] := by rfl
    rw [h1] at hmap
    simpa [Except.map] using hmap
  have hfind1 : (w1.find 1).map ShaderData.textureUnitPool = some [("s", 1)] := by
    have hmap : (Shader.sendTexture exampleWorld2 1 "s" 4).map
        (fun v => (v.find 1).map ShaderData.textureUnitPool) = .ok (some [("s", 1)]) := by rfl
    rw [h1] at hmap
    simpa [Except.map] using hmap
  have hcomp : ((Shader.sendTexture exampleWorld2 1 "s" 4).bind
      (fun v => Shader.sendTexture v 2 "t" 7)).map
        (fun v => (v.find 2).map ShaderData.textureUnitPool) = .ok (some [("t", 2)]) := by rfl
  rw [h1] at hcomp
  simp [Except.bind] at hcomp
  cases h2 : Shader.sendTexture w1 2 "t" 7 with
  | error e =>
      rw [h2] at hcomp
      simp [Except.map] at hcomp
  | ok w2 =>
  rw [h2] at hcomp
  simp [Except.map] at hcomp
  cases hfd1 : w1.find 1 with
  | none => rw [hfd1] at hfind1; simp at hfind1
  | some dA2 =>
  rw [hfd1] at hfind1
  simp only [Option.map_some', Option.some.injEq] at hfind1
  cases hfd2 : w2.find 2 with
  | none => rw [hfd2] at hcomp; simp at hcomp
  | some dB2 =>
  rw [hfd2] at hcomp
  simp only [Option.map_some', Option.some.injEq] at hcomp
  have huA : dA2.textureUnitPool.lookup "s" = some 1 := by
    rw [hfind1]
    rfl
  obtain ⟨a2, ha2, hpool2⟩ := hcomp
  subst ha2
  have huB : dB2.textureUnitPool.lookup "t" = some 2 := by
    rw [hpool2]
    rfl
  refine ⟨w1, w2, 1, 2, dA2, dB2, rfl, h2, hfd1, huA, hfd2, huB, ?_⟩
  exact distinct_units_for_distinct_shaders exampleWorld2 1 2 exampleShader
    exampleShader2 "s" "t" 4 7 w1 w2 1 2 dA2 dB2 (by decide) rfl rfl rfl rfl
    (by intro a ha; simpa [exampleShader] using ha)
    (by intro c hc; simp [exampleWorld2, exampleWorld] at hc; omega)
    h1 h2 hfd1 huA hfd2 huB ⟨1, by rw [htc1]; rfl⟩

/-! ## Input-state lemmas (claim C6) -/

theorem toNat_injective {a b : MouseButton} (h : a.toNat = b.toNat) : a = b := by
  cases a <;> cases b <;> first
    | rfl
    | exact absurd h (by decide)

theorem update_keys_length (ev : InputEvent) (st : InputState) :
    (UpdateInputState ev st).keys.length = st.keys.length := by
  unfold UpdateInputState
  cases hd : ev.data with
  | mouse m => cases hm : m.type <;> simp [hm]
  | wheel q => simp
  | key k => cases hk : k.type <;> simp [hk] <;> split <;> simp
  | character t => simp

theorem update_buttons_length (ev : InputEvent) (st : InputState) :
    (UpdateInputState ev st).mouseButton.length = st.mouseButton.length := by
  unfold UpdateInputState
  cases hd : ev.data with
  | mouse m => cases hm : m.type <;> simp [hm]
  | wheel q => simp
  | key k => cases hk : k.type <;> simp [hk] <;> split <;> simp
  | character t => simp

theorem update_keys_getD (e : HostEvent) (st : InputState) (code : Nat)
    (hcode : code < KEY_CODE_MAX) (hlen : st.keys.length = KEY_CODE_MAX) :
    (UpdateInputState (ConvertEvent e) st).keys.getD code false =
      (keyAction e code).getD (st.keys.getD code false) := by
  cases he : e.type <;>
    simp only [ConvertEvent, keyAction, he, UpdateInputState]
  case mouseDown | mouseUp | mouseMove | mouseEnter | mouseLeave => simp
  case wheel => simp
  case rawKeyDown => simp
  case char => simp
  case keyDown =>
      by_cases hk : e.keyCode = code
      · subst hk
        rw [if_pos hcode]
        show (st.keys.set e.keyCode true).getD e.keyCode false = _
        rw [getD_set_self (by omega)]
        simp
      · have hbr : (if e.keyCode = code then some true else (none : Option Bool)) = none :=
          if_neg hk
        rw [hbr]
        split
        · show (st.keys.set e.keyCode true).getD code false = _
          rw [getD_set_ne hk]
          rfl
        · rfl
  case keyUp =>
      by_cases hk : e.keyCode = code
      · subst hk
        rw [if_pos hcode]
        show (st.keys.set e.keyCode false).getD e.keyCode false = _
        rw [getD_set_self (by omega)]
        simp
      · have hbr : (if e.keyCode = code then some false else (none : Option Bool)) = none :=
          if_neg hk
        rw [hbr]
        split
        · show (st.keys.set e.keyCode false).getD code false = _
          rw [getD_set_ne hk]
          rfl
        · rfl

theorem update_buttons_getD (e : HostEvent) (st : InputState) (btn : MouseButton)
    (hlen : st.mouseButton.length = MOUSE_BUTTON_MAX) :
    (UpdateInputState (ConvertEvent e) st).mouseButton.getD btn.toNat false =
      (buttonAction e btn).getD (st.mouseButton.getD btn.toNat false) := by
  cases he : e.type <;>
    simp only [ConvertEvent, buttonAction, he, UpdateInputState]
  case mouseMove | mouseEnter | mouseLeave => simp
  case wheel => simp
  case rawKeyDown => simp
  case keyDown =>
      split <;> rfl
  case keyUp =>
      split <;> rfl
  case char => simp
  case mouseDown =>
      by_cases hb : e.button = btn
      · subst hb
        show (st.mouseButton.set e.button.toNat true).getD e.button.toNat false = _
        rw [getD_set_self (by rw [hlen]; cases e.button <;> decide)]
        simp
      · have hbr : (if e.button = btn then some true else (none : Option Bool)) = none :=
          if_neg hb
        rw [hbr]
        show (st.mouseButton.set e.button.toNat true).getD btn.toNat false = _
        rw [getD_set_ne (fun hcontra => hb (toNat_injective hcontra))]
        rfl
  case mouseUp =>
      by_cases hb : e.button = btn
      · subst hb
        show (st.mouseButton.set e.button.toNat false).getD e.button.toNat false = _
        rw [getD_set_self (by rw [hlen]; cases e.button <;> decide)]
        simp
      · have hbr : (if e.button = btn then some false else (none : Option Bool)) = none :=
          if_neg hb
        rw [hbr]
        show (st.mouseButton.set e.button.toNat false).getD btn.toNat false = _
        rw [getD_set_ne (fun hcontra => hb (toNat_injective hcontra))]
        rfl

theorem update_pos (e : HostEvent) (st : InputState) :
    ((UpdateInputState (ConvertEvent e) st).mouseX,
     (UpdateInputState (ConvertEvent e) st).mouseY) =
      (if e.type.isMouse then some (e.x, e.y) else none).getD (st.mouseX, st.mouseY) := by
  cases he : e.type <;>
    simp [ConvertEvent, he, UpdateInputState, HostEventType.isMouse]
  case keyDown => split <;> exact ⟨rfl, rfl⟩
  case keyUp => split <;> exact ⟨rfl, rfl⟩

theorem enqueueAll_keys_getD (es : List HostEvent) (b : Bridge) (code : Nat)
    (hcode : code < KEY_CODE_MAX) (hlen : b.state.keys.length = KEY_CODE_MAX) :
    (enqueueAll b es).state.keys.getD code false =
      (lastKeyEvent es code).getD (b.state.keys.getD code false) := by
  induction es generalizing b with
  | nil => rfl
  | cons e rest ih =>
      show (enqueueAll (EnqueueEvent b e) rest).state.keys.getD code false = _
      rw [ih (EnqueueEvent b e) (by
        show (UpdateInputState (ConvertEvent e) b.state).keys.length = _
        rw [update_keys_length]
        exact hlen)]
      show (lastKeyEvent rest code).getD
        ((UpdateInputState (ConvertEvent e) b.state).keys.getD code false) = _
      rw [update_keys_getD e b.state code hcode hlen]
      cases hl : lastKeyEvent rest code <;> simp [lastKeyEvent, hl]

theorem enqueueAll_buttons_getD (es : List HostEvent) (b : Bridge) (btn : MouseButton)
    (hlen : b.state.mouseButton.length = MOUSE_BUTTON_MAX) :
    (enqueueAll b es).state.mouseButton.getD btn.toNat false =
      (lastButtonEvent es btn).getD (b.state.mouseButton.getD btn.toNat false) := by
  induction es generalizing b with
  | nil => rfl
  | cons e rest ih =>
      show (enqueueAll (EnqueueEvent b e) rest).state.mouseButton.getD btn.toNat false = _
      rw [ih (EnqueueEvent b e) (by
        show (UpdateInputState (ConvertEvent e) b.state).mouseButton.length = _
        rw [update_buttons_length]
        exact hlen)]
      show (lastButtonEvent rest btn).getD
        ((UpdateInputState (ConvertEvent e) b.state).mouseButton.getD btn.toNat false) = _
      rw [update_buttons_getD e b.state btn hlen]
      cases hl : lastButtonEvent rest btn <;> simp [lastButtonEvent, hl]

theorem enqueueAll_pos (es : List HostEvent) (b : Bridge) :
    ((enqueueAll b es).state.mouseX, (enqueueAll b es).state.mouseY) =
      (lastMousePos es).getD (b.state.mouseX, b.state.mouseY) := by
  induction es generalizing b with
  | nil => rfl
  | cons e rest ih =>
      show ((enqueueAll (EnqueueEvent b e) rest).state.mouseX,
        (enqueueAll (EnqueueEvent b e) rest).state.mouseY) = _
      rw [ih (EnqueueEvent b e)]
      show (lastMousePos rest).getD
        ((UpdateInputState (ConvertEvent e) b.state).mouseX,
         (UpdateInputState (ConvertEvent e) b.state).mouseY) = _
      rw [update_pos e b.state]
      cases hl : lastMousePos rest <;> simp [lastMousePos, hl]

theorem enqueueAll_state_only (es : List HostEvent) (b b' : Bridge)
    (h : b.state = b'.state) :
    (enqueueAll b es).state = (enqueueAll b' es).state := by
  induction es generalizing b b' with
  | nil => exact h
  | cons e rest ih =>
      show (enqueueAll (EnqueueEvent b e) rest).state = _
      exact ih (EnqueueEvent b e) (EnqueueEvent b' e) (by simp [EnqueueEvent, h])

theorem runActions_state (b : Bridge) (acts : List BridgeAction) :
    (runActions b acts).state =
      (enqueueAll b (acts.filterMap BridgeAction.enqEvent)).state := by
  induction acts generalizing b with
  | nil => rfl
  | cons a rest ih =>
      cases a with
      | enq e =>
          show (runActions (EnqueueEvent b e) rest).state = _
          rw [ih (EnqueueEvent b e)]
          rfl
      | deq =>
          show (runActions (DequeueEvent b).2 rest).state = _
          rw [ih (DequeueEvent b).2]
          refine enqueueAll_state_only _ _ _ ?_
          cases hq : b.queue <;> simp [DequeueEvent, hq]
      | deqAll =>
          show (runActions (DequeueAllEvents b).2 rest).state = _
          rw [ih (DequeueAllEvents b).2]
          refine enqueueAll_state_only _ _ _ ?_
          rfl

theorem getD_replicate_false (n i : Nat) :
    (List.replicate n false).getD i false = false := by
  rcases lt_or_ge i n with hi | hi
  · rw [getD_of_lt (by simpa using hi)]
    simp
  · exact List.getD_eq_default _ _ (by simpa using hi)

/-- Claim C6: immediately after any sequence of `EnqueueEvent` calls the
persistent state reflects the most recent down/up event for every valid
key code and mouse button and the position of the most recent mouse
event; interleaved `DequeueEvent`/`DequeueAllEvents` calls never affect
the persistent state. -/
theorem inputState_reflects_history :
    (∀ (es : List HostEvent) (code : Nat), code < KEY_CODE_MAX →
        IsKeyPressed (enqueueAll bridgeInit es).state code =
          (lastKeyEvent es code).getD false) ∧
    (∀ (es : List HostEvent) (btn : MouseButton), btn ≠ MouseButton.none →
        IsMouseButtonPressed (enqueueAll bridgeInit es).state btn =
          (lastButtonEvent es btn).getD false) ∧
    (∀ es : List HostEvent,
        GetMouseX (enqueueAll bridgeInit es).state =
          ((lastMousePos es).map Prod.fst).getD 0 ∧
        GetMouseY (enqueueAll bridgeInit es).state =
          ((lastMousePos es).map Prod.snd).getD 0) ∧
    (∀ (b : Bridge) (acts : List BridgeAction),
        (runActions b acts).state =
          (enqueueAll b (acts.filterMap BridgeAction.enqEvent)).state) := by
  refine ⟨?_, ?_, ?_, runActions_state⟩
  · intro es code hcode
    unfold IsKeyPressed
    rw [if_neg (by omega)]
    rw [enqueueAll_keys_getD es bridgeInit code hcode (by simp [bridgeInit, initState])]
    rw [show bridgeInit.state.keys.getD code false = false from getD_replicate_false _ _]
  · intro es btn hbtn
    unfold IsMouseButtonPressed
    have hcond : ¬ (btn.toNat ≤ MouseButton.none.toNat ∨ btn.toNat ≥ MOUSE_BUTTON_MAX) := by
      cases btn
      · exact absurd rfl hbtn
      all_goals decide
    rw [if_neg hcond]
    rw [enqueueAll_buttons_getD es bridgeInit btn (by simp [bridgeInit, initState])]
    rw [show bridgeInit.state.mouseButton.getD btn.toNat false = false from
      getD_replicate_false _ _]
  · intro es
    have hp := enqueueAll_pos es bridgeInit
    cases hl : lastMousePos es with
    | none =>
        rw [hl] at hp
        have h1 : (enqueueAll bridgeInit es).state.mouseX = (0 : Int) :=
          congrArg Prod.fst hp
        have h2 : (enqueueAll bridgeInit es).state.mouseY = (0 : Int) :=
          congrArg Prod.snd hp
        exact ⟨by simpa [GetMouseX] using h1, by simpa [GetMouseY] using h2⟩
    | some p =>
        rw [hl] at hp
        have h1 := congrArg Prod.fst hp
        have h2 := congrArg Prod.snd hp
        simp only [Option.getD_some] at h1 h2
        exact ⟨by simpa [GetMouseX] using h1, by simpa [GetMouseY] using h2⟩

theorem inputState_reflects_history_witness :
    IsKeyPressed (enqueueAll bridgeInit
      [⟨.keyDown, 0, 0, 0, 0, 0, .none, 0, 0, 0, 0, false, 65, []⟩]).state 65 = true ∧
    IsMouseButtonPressed (enqueueAll bridgeInit
      [⟨.mouseDown, 0, 3, 4, 0, 0, .left, 0, 0, 0, 0, false, 0, []⟩]).state .left = true ∧
    GetMouseX (enqueueAll bridgeInit
      [⟨.mouseDown, 0, 3, 4, 0, 0, .left, 0, 0, 0, 0, false, 0, []⟩]).state = 3 ∧
    (runActions bridgeInit [.enq ⟨.keyDown, 0, 0, 0, 0, 0, .none, 0, 0, 0, 0, false, 65, []⟩,
        .deq]).state =
      (enqueueAll bridgeInit
        [⟨.keyDown, 0, 0, 0, 0, 0, .none, 0, 0, 0, 0, false, 65, []⟩]).state := by
  refine ⟨?_, ?_, ?_, ?_⟩
  · exact (inputState_reflects_history.1
      [⟨.keyDown, 0, 0, 0, 0, 0, .none, 0, 0, 0, 0, false, 65, []⟩] 65 (by decide)).trans
      (by decide)
  · exact (inputState_reflects_history.2.1
      [⟨.mouseDown, 0, 3, 4, 0, 0, .left, 0, 0, 0, 0, false, 0, []⟩] .left (by decide)).trans
      (by decide)
  · exact ((inputState_reflects_history.2.2.1
      [⟨.mouseDown, 0, 3, 4, 0, 0, .left, 0, 0, 0, 0, false, 0, []⟩]).1).trans (by decide)
  · exact inputState_reflects_history.2.2.2 bridgeInit _

end LoveNacl
